import Mathlib

/-!
The pose-estimation command-line sample `bodyposeimg`.

A shallow embedding of `src/bodyposeimg.c` (function `main`).

The program drives the external VAAL inference library.  The library is not
part of the repository, so it enters the model as a parameter `Vaal`: the
constants of `vaal.h` the program mentions and, for every library function
the program calls, the answer the library gives.  A run of the program is
the sequence of library calls and output writes it performs (`Event`),
together with the exit status.

Conventions
* `getopt_long` belongs to libc.  The command line is given as the sequence
  of results `getopt_long` hands to the option loop, followed by the
  operands `argv[optind .. argc-1]`.
* Functions called once per image (`vaal_load_image_file`, `vaal_run_model`,
  and the keypoints found by the decode stage) take the number of earlier
  calls of the same function as first argument, so the library may answer
  differently for every image; `vaal_clock_now` takes the number of earlier
  clock samples.  Clock differences are exact integers.
* The decode function `vaal_keypoints` is given by what the engine found for
  the image (`Vaal.detections`) and the contract the specification states for
  it: it copies at most `max` entries into the caller's buffer and reports how
  many it copied.
* `printf` with floating-point conversions is kept structured: a timing line
  carries the three nanosecond differences, a keypoint line carries the index,
  the `%3d` argument and the two coordinates.
* `calloc` is taken to succeed, as the program does not test its result.
* `float` is IEEE-754 binary32 with round-to-nearest-even, evaluated in
  binary32 (`FLT_EVAL_METHOD == 0`).
-/

namespace BodyPose

/-! ## Binary32 scores -/

/-- An IEEE-754 binary32 value, given by its bit pattern (taken modulo `2^32`). -/
structure F32 where
  bits : Nat
deriving DecidableEq, Repr

/-- Sign bit. -/
def F32.sign (f : F32) : Bool := f.bits / 2 ^ 31 % 2 = 1

/-- Biased exponent field. -/
def F32.expo (f : F32) : Nat := f.bits / 2 ^ 23 % 256

/-- Fraction field. -/
def F32.frac (f : F32) : Nat := f.bits % 2 ^ 23

/-- A finite binary number `± m · 2 ^ e`. -/
structure Binary where
  neg : Bool
  m : Nat
  e : Int
deriving DecidableEq, Repr

/-- Rational value of a finite binary number. -/
def Binary.toRat (b : Binary) : ℚ :=
  (if b.neg then -1 else 1) * (b.m : ℚ) * (2 : ℚ) ^ b.e

/-- Value of a binary32 pattern; `none` for infinities and NaNs. -/
def F32.toBinary (f : F32) : Option Binary :=
  if f.expo = 255 then none
  else if f.expo = 0 then some ⟨f.sign, f.frac, -149⟩
  else some ⟨f.sign, 2 ^ 23 + f.frac, (f.expo : Int) - 150⟩

/-- Number of binary digits of `n` (`0` for `0`); `fuel ≥ n` digits suffice. -/
def bitLengthAux : Nat → Nat → Nat
  | 0, _ => 0
  | fuel + 1, n => if n = 0 then 0 else bitLengthAux fuel (n / 2) + 1

/-- Number of binary digits of `n`. -/
def bitLength (n : Nat) : Nat := bitLengthAux n n

/-- Rounding of an exact result to 24 significant bits, ties to even.  (For the
products formed here the exponent never drops below `-149`, so no further
rounding to the subnormal grid occurs.) -/
def round24 (b : Binary) : Binary :=
  if b.m < 2 ^ 24 then b
  else
    let shift := bitLength b.m - 24
    let q := b.m / 2 ^ shift
    let r := b.m % 2 ^ shift
    let half := 2 ^ (shift - 1)
    let up := decide (half < r) || (decide (r = half) && decide (q % 2 = 1))
    ⟨b.neg, if up then q + 1 else q, b.e + shift⟩

/-- The binary32 product `x * 100` of the C expression `point->score * 100`:
the `int` constant is converted to `100.0f` and the exact product is rounded. -/
def mul100 (b : Binary) : Binary := round24 ⟨b.neg, b.m * 100, b.e⟩

/-- The C conversion `(int) x`: the fractional part is discarded; the result is
undefined (`none`) when the integral part does not fit a 32-bit `int`. -/
def truncToInt (b : Binary) : Option Int :=
  let n : Nat := if 0 ≤ b.e then b.m * 2 ^ b.e.toNat else b.m / 2 ^ (-b.e).toNat
  let v : Int := if b.neg then -(n : Int) else (n : Int)
  if -(2 : Int) ^ 31 ≤ v ∧ v < (2 : Int) ^ 31 then some v else none

/-- The `%3d` argument `(int) (point->score * 100)` of line 174; `none` where C
leaves the conversion undefined (NaN, infinity, or out of `int` range). -/
def scorePercent (score : F32) : Option Int :=
  match score.toBinary with
  | none => none
  | some b => truncToInt (mul100 b)

/-! ## The library interface -/

/-- A `VAALContext*`; `0` is `NULL`. -/
abbrev Ctx := Nat

/-- The `VAALKeypoint` record read by the report loop. -/
structure VAALKeypoint where
  x : F32
  y : F32
  score : F32
deriving DecidableEq, Repr

/-- What the program needs from `vaal.h` and the library behind it. -/
structure Vaal where
  VAAL_IMAGE_PROC_UNSIGNED_NORM : Int
  VAAL_IMAGE_PROC_WHITENING : Int
  VAAL_IMAGE_PROC_SIGNED_NORM : Int
  VAAL_IMAGE_PROC_IMAGENET : Int
  vaal_version : String
  vaal_strerror : Int → String
  vaal_context_create : String → Ctx
  vaal_load_model_file : Ctx → String → Int
  vaal_model_probe : String → String → Ctx
  vaal_clock_now : Nat → Int
  vaal_load_image_file : Nat → Ctx → String → Int
  vaal_run_model : Nat → Ctx → Int
  /-- Keypoints the engine found for the n-th decode call, or `none` when the
  decode stage fails. -/
  detections : Nat → Ctx → Option (List VAALKeypoint)

/-- One line written to standard output. -/
inductive OutLine where
  | text (s : String)
  | timing (load_ns inference_ns pose_ns : Int)
  | keypoint (j : Nat) (percent : Option Int) (x y : F32)
deriving DecidableEq, Repr

/-- Library calls and writes performed by the program, in program order. -/
inductive Event where
  | vaal_version
  | calloc (count : Nat)
  | vaal_context_create (engine : String)
  | vaal_load_model_file (ctx : Ctx) (model : String)
  | vaal_context_release (ctx : Ctx)
  | vaal_model_probe (engine model : String)
  | vaal_parameter_seti (ctx : Ctx) (name : String) (values : List Int) (count : Nat)
  | vaal_clock_now
  | vaal_load_image_file (ctx : Ctx) (image : String)
  | vaal_run_model (ctx : Ctx)
  | vaal_keypoints (ctx : Ctx) (max : Nat)
  | vaal_strerror (err : Int)
  | free
  | stdout (line : OutLine)
  | stderr (text : String)
deriving DecidableEq, Repr

/-- A terminated run: what happened and the value returned by `main`. -/
structure Run where
  trace : List Event
  status : Int
deriving DecidableEq, Repr

def EXIT_SUCCESS : Int := 0

def EXIT_FAILURE : Int := 1

def USAGE : String :=
  "detect [hv] model.rtm image0 [imageN]\n    -h, --help\n        Display help information\n    -v, --version\n        Display version information\n    -e, --engine\n        Compute engine type \"cpu\", \"npu\"\n    -n, --norm\n        Normalization method applied to input images. \n            - raw (default, no processing) \n            - unsigned (0...1) \n            - signed (-1...1) \n            - whitening (per-image standardization/whitening) \n            - imagenet (standardization using imagenet) \n"

def max_keypoints : Nat := 50

/-! ## Keypoint decoding -/

/-- The caller-owned keypoint buffer. -/
abbrev Buffer := List VAALKeypoint

/-- The zero-filled record produced by `calloc`. -/
def VAALKeypoint.zero : VAALKeypoint := ⟨⟨0⟩, ⟨0⟩, ⟨0⟩⟩

/-- Result of one `vaal_keypoints` call: return value, buffer, `num_kpts`. -/
structure Decoded where
  err : Int
  keypoints : Buffer
  num_kpts : Nat
deriving DecidableEq, Repr

/-- Modelled from the spec: the library function `vaal_keypoints` (declared in
`vaal.h`, implemented in the VAAL library, neither under `src/`).  Spec §4.4c:
"extract up to `maxKeypoints` entries into the caller's buffer; returns the
actual count found (`numKeypoints ≤ maxKeypoints`)"; a failing decode returns a
non-zero status. -/
def vaal_keypoints (found : Option (List VAALKeypoint)) (keypoints : Buffer)
    (max : Nat) (num_kpts : Nat) : Decoded :=
  match found with
  | none => ⟨-1, keypoints, num_kpts⟩
  | some ks =>
    let written := ks.take max
    ⟨0, written ++ keypoints.drop written.length, written.length⟩

/-! ## The program -/

/-- One result of `getopt_long`: the option character and `optarg`. -/
structure GetOpt where
  opt : Char
  optarg : String
deriving DecidableEq, Repr

/-- The command line after `getopt_long`: the options in the order they are
returned, and the operands `argv[optind], …, argv[argc-1]`. -/
structure CommandLine where
  options : List GetOpt
  operands : List String
deriving DecidableEq, Repr

/-- The variables the option loop assigns. -/
structure Settings where
  engine : String
  norm : Int
deriving DecidableEq, Repr

/-- The `strcmp` chain of case `'n'` (lines 80-95); `none` is the final `else`. -/
def parseNorm (V : Vaal) (optarg : String) : Option Int :=
  if optarg = "raw" then some 0
  else if optarg = "signed" then some V.VAAL_IMAGE_PROC_SIGNED_NORM
  else if optarg = "unsigned" then some V.VAAL_IMAGE_PROC_UNSIGNED_NORM
  else if optarg = "whitening" then some V.VAAL_IMAGE_PROC_WHITENING
  else if optarg = "imagenet" then some V.VAAL_IMAGE_PROC_IMAGENET
  else none

/-- The option loop (lines 66-106): either `main` returns from inside the loop
(`Except.error`), or the loop ends with the settings it has assigned. -/
def parseOptions (V : Vaal) : List GetOpt → Settings → Except Run Settings
  | [], st => .ok st
  | o :: rest, st =>
    if o.opt = 'h' then
      .error ⟨[.stdout (.text USAGE)], EXIT_SUCCESS⟩
    else if o.opt = 'v' then
      .error ⟨[.vaal_version,
               .stdout (.text ("DeepView VisionPack Detection Sample with VAAL "
                 ++ V.vaal_version ++ "\n"))], EXIT_SUCCESS⟩
    else if o.opt = 'n' then
      match parseNorm V o.optarg with
      | some n => parseOptions V rest { st with norm := n }
      | none =>
        .error ⟨[.stderr ("unsupported image normalization method: "
                   ++ o.optarg ++ "\n")], EXIT_FAILURE⟩
    else if o.opt = 'e' then
      parseOptions V rest { st with engine := o.optarg }
    else
      .error ⟨[.stderr ("invalid parameter " ++ String.singleton o.opt
                 ++ ", try --help for usage\n")], EXIT_FAILURE⟩

/-- The keypoint rows of one report (lines 169-177): row `j` reads
`keypoints[j]`. -/
def keypointRows (keypoints : Buffer) (num_kpts : Nat) : List OutLine :=
  (List.range num_kpts).map fun j =>
    let point := keypoints.getD j VAALKeypoint.zero
    OutLine.keypoint j (scorePercent point.score) point.x point.y

/-- State carried from one loop iteration to the next. -/
structure LoopState where
  keypoints : Buffer
  num_kpts : Nat
deriving DecidableEq, Repr

/-- Outcome of one iteration of the image loop. -/
inductive Iteration where
  | exit (events : List Event) (status : Int)
  | next (events : List Event) (st : LoopState)
deriving DecidableEq, Repr

/-- The body of the image loop (lines 135-177) for the image at position `i`
of the operand list (counted from 0 after the model). -/
def poseImage (V : Vaal) (pose_ctx : Ctx) (i : Nat) (image : String)
    (st : LoopState) : Iteration :=
  let start := V.vaal_clock_now (6 * i)
  let err := V.vaal_load_image_file i pose_ctx image
  if err ≠ 0 then
    .exit [.vaal_clock_now, .vaal_load_image_file pose_ctx image, .vaal_strerror err,
           .stderr ("failed to load " ++ image ++ ": " ++ V.vaal_strerror err ++ "\n")]
      EXIT_FAILURE
  else
    let load_ns := V.vaal_clock_now (6 * i + 1) - start
    let start := V.vaal_clock_now (6 * i + 2)
    let err := V.vaal_run_model i pose_ctx
    let inference_ns := V.vaal_clock_now (6 * i + 3) - start
    if err ≠ 0 then
      .exit [.vaal_clock_now, .vaal_load_image_file pose_ctx image, .vaal_clock_now,
             .vaal_clock_now, .vaal_run_model pose_ctx, .vaal_clock_now,
             .vaal_strerror err,
             .stderr ("failed to run model: " ++ V.vaal_strerror err ++ "\n")]
        EXIT_FAILURE
    else
      let start := V.vaal_clock_now (6 * i + 4)
      let d := vaal_keypoints (V.detections i pose_ctx) st.keypoints max_keypoints
        st.num_kpts
      if d.err ≠ 0 then
        .exit [.vaal_clock_now, .vaal_load_image_file pose_ctx image, .vaal_clock_now,
               .vaal_clock_now, .vaal_run_model pose_ctx, .vaal_clock_now,
               .vaal_clock_now, .vaal_keypoints pose_ctx max_keypoints,
               .stdout (.text "Keypoint detection failed.\n")]
          EXIT_FAILURE
      else
        let pose_ns := V.vaal_clock_now (6 * i + 5) - start
        .next ([.vaal_clock_now, .vaal_load_image_file pose_ctx image, .vaal_clock_now,
                .vaal_clock_now, .vaal_run_model pose_ctx, .vaal_clock_now,
                .vaal_clock_now, .vaal_keypoints pose_ctx max_keypoints,
                .vaal_clock_now,
                .stdout (.timing load_ns inference_ns pose_ns)]
               ++ (keypointRows d.keypoints d.num_kpts).map Event.stdout)
          ⟨d.keypoints, d.num_kpts⟩

/-- The image loop and what follows it (lines 134-184). -/
def poseImages (V : Vaal) (pose_ctx : Ctx) : Nat → List String → LoopState → Run
  | _, [], _ => ⟨[.vaal_context_release pose_ctx, .free], EXIT_SUCCESS⟩
  | i, image :: rest, st =>
    match poseImage V pose_ctx i image st with
    | .exit events status => ⟨events, status⟩
    | .next events st1 =>
      let r := poseImages V pose_ctx (i + 1) rest st1
      ⟨events ++ r.trace, r.status⟩

/-- Lines 131-184: configuration, image loop, release. -/
def runLoaded (V : Vaal) (pose_ctx : Ctx) (norm : Int) (images : List String)
    (st : LoopState) : Run :=
  let r := poseImages V pose_ctx 0 images st
  ⟨.vaal_parameter_seti pose_ctx "normalization" [norm] 1 :: r.trace, r.status⟩

/-- Outcome of model acquisition: the calls made, the status of the direct load,
and the context that ended up loaded (`none` when the probe returned `NULL`). -/
structure Acquired where
  events : List Event
  err : Int
  loaded : Option Ctx
deriving DecidableEq, Repr

/-- Model acquisition (lines 120-125). -/
def acquire (V : Vaal) (engine model : String) : Acquired :=
  let pose_ctx := V.vaal_context_create engine
  let err := V.vaal_load_model_file pose_ctx model
  if err ≠ 0 then
    let pose_ctx1 := V.vaal_model_probe engine model
    ⟨[.vaal_context_create engine, .vaal_load_model_file pose_ctx model,
      .vaal_context_release pose_ctx, .vaal_model_probe engine model],
     err, if pose_ctx1 = 0 then none else some pose_ctx1⟩
  else
    ⟨[.vaal_context_create engine, .vaal_load_model_file pose_ctx model], err,
     some pose_ctx⟩

/-- The program. -/
def main (V : Vaal) (cmd : CommandLine) : Run :=
  match parseOptions V cmd.options ⟨"npu", 0⟩ with
  | .error r => r
  | .ok s =>
    match cmd.operands with
    | [] => ⟨[.stderr "missing required model, try --help for usage\n"], EXIT_FAILURE⟩
    | model :: images =>
      let st : LoopState := ⟨List.replicate max_keypoints VAALKeypoint.zero, 0⟩
      let a := acquire V s.engine model
      match a.loaded with
      | none =>
        ⟨.calloc max_keypoints :: a.events ++
          [.vaal_strerror a.err,
           .stderr ("failed to load model: " ++ V.vaal_strerror a.err ++ "\n")],
         EXIT_FAILURE⟩
      | some pose_ctx =>
        let r := runLoaded V pose_ctx s.norm images st
        ⟨.calloc max_keypoints :: a.events ++ r.trace, r.status⟩

/-! ## Observations on a run -/

/-- Lines written to standard output, in order. -/
def stdoutOf (es : List Event) : List OutLine :=
  es.filterMap fun e => match e with
    | .stdout l => some l
    | _ => none

/-- Texts written to standard error, in order. -/
def stderrOf (es : List Event) : List String :=
  es.filterMap fun e => match e with
    | .stderr s => some s
    | _ => none

/-- Contexts passed to `vaal_context_release`, in order. -/
def releasesOf (es : List Event) : List Ctx :=
  es.filterMap fun e => match e with
    | .vaal_context_release c => some c
    | _ => none

/-- Arguments of the `vaal_model_probe` calls, in order. -/
def probesOf (es : List Event) : List (String × String) :=
  es.filterMap fun e => match e with
    | .vaal_model_probe engine model => some (engine, model)
    | _ => none

/-- Engine names passed to `vaal_context_create`, in order. -/
def createsOf (es : List Event) : List String :=
  es.filterMap fun e => match e with
    | .vaal_context_create engine => some engine
    | _ => none

/-- Image paths passed to `vaal_load_image_file`, in order. -/
def imageLoadsOf (es : List Event) : List String :=
  es.filterMap fun e => match e with
    | .vaal_load_image_file _ image => some image
    | _ => none

/-- Is the event a call of the library (anything but `calloc`, `free` and the
two output streams)? -/
def Event.isEngineCall : Event → Bool
  | .calloc _ => false
  | .free => false
  | .stdout _ => false
  | .stderr _ => false
  | _ => true

/-- Is the event one of the three per-image stage calls? -/
def Event.isStageCall : Event → Bool
  | .vaal_load_image_file _ _ => true
  | .vaal_run_model _ => true
  | .vaal_keypoints _ _ => true
  | _ => false

/-- Is the event a `vaal_parameter_seti` call? -/
def Event.isParameterCall : Event → Bool
  | .vaal_parameter_seti _ _ _ _ => true
  | _ => false

/-- Events of one loop iteration. -/
def Iteration.events : Iteration → List Event
  | .exit events _ => events
  | .next events _ => events

/-! ## Invariants of the image loop -/

/-- Events the image loop and the code after it can perform on context `ctx`. -/
def Event.inLoop (ctx : Ctx) : Event → Prop
  | .vaal_clock_now => True
  | .vaal_load_image_file c _ => c = ctx
  | .vaal_run_model c => c = ctx
  | .vaal_keypoints c m => c = ctx ∧ m = max_keypoints
  | .vaal_strerror _ => True
  | .stdout (.keypoint j _ _ _) => j < max_keypoints
  | .stdout _ => True
  | .stderr _ => True
  | .vaal_context_release c => c = ctx
  | .free => True
  | _ => False

/-- The capacity facts of a run: the allocation size, the capacity handed to
`vaal_keypoints`, and the buffer index behind every keypoint line. -/
def Event.withinCapacity : Event → Prop
  | .calloc count => count = max_keypoints
  | .vaal_keypoints _ max => max = max_keypoints
  | .stdout (.keypoint j _ _ _) => j < max_keypoints
  | _ => True

/-! ## Sample engines -/

/-- An engine on which every call succeeds; each image yields the three
keypoints with scores 0.91f, 0.40f and 0.77f. -/
def sampleVaal : Vaal where
  VAAL_IMAGE_PROC_UNSIGNED_NORM := 1
  VAAL_IMAGE_PROC_WHITENING := 2
  VAAL_IMAGE_PROC_SIGNED_NORM := 4
  VAAL_IMAGE_PROC_IMAGENET := 8
  vaal_version := "1.0"
  vaal_strerror := fun _ => "error"
  vaal_context_create := fun _ => 1
  vaal_load_model_file := fun _ _ => 0
  vaal_model_probe := fun _ _ => 2
  vaal_clock_now := fun n => 1000 * n
  vaal_load_image_file := fun _ _ _ => 0
  vaal_run_model := fun _ _ => 0
  detections := fun _ _ =>
    some [⟨⟨0x42C80000⟩, ⟨0x42480000⟩, ⟨0x3F68F5C3⟩⟩,
          ⟨⟨0x42C80000⟩, ⟨0x42480000⟩, ⟨0x3ECCCCCD⟩⟩,
          ⟨⟨0x42C80000⟩, ⟨0x42480000⟩, ⟨0x3F451EB8⟩⟩]

/-- The engine `sampleVaal`, except that loading the third image fails. -/
def thirdLoadFails : Vaal :=
  { sampleVaal with vaal_load_image_file := fun i _ _ => if i = 2 then 5 else 0 }

/-- The engine `sampleVaal`, except that the direct model load fails with
code 7, so that the probe supplies the context. -/
def directLoadFails : Vaal :=
  { sampleVaal with vaal_load_model_file := fun _ _ => 7 }

/-- The engine `directLoadFails`, except that the probe fails too. -/
def probeFails : Vaal :=
  { directLoadFails with
    vaal_model_probe := fun _ _ => 0
    vaal_strerror := fun e => if e = 7 then "model not supported" else "error" }

/-- The engine `sampleVaal`, except that every image load fails with code 5. -/
def imageLoadFails : Vaal :=
  { sampleVaal with vaal_load_image_file := fun _ _ _ => 5 }

/-- The engine `sampleVaal`, except that every inference fails with code 6. -/
def inferenceFails : Vaal :=
  { sampleVaal with vaal_run_model := fun _ _ => 6 }

/-- The engine `sampleVaal`, except that every keypoint decode fails. -/
def decodeFails : Vaal :=
  { sampleVaal with detections := fun _ _ => none }

/-! ## Reference descriptions of the per-image report -/

/-- Keypoint lines for a list of keypoints, numbered upwards from `j`. -/
def rowsFrom : Nat → List VAALKeypoint → List OutLine
  | _, [] => []
  | j, p :: ps => .keypoint j (scorePercent p.score) p.x p.y :: rowsFrom (j + 1) ps

/-- The timing line of the image at position `i`. -/
def timingLine (V : Vaal) (i : Nat) : OutLine :=
  .timing (V.vaal_clock_now (6 * i + 1) - V.vaal_clock_now (6 * i))
    (V.vaal_clock_now (6 * i + 3) - V.vaal_clock_now (6 * i + 2))
    (V.vaal_clock_now (6 * i + 5) - V.vaal_clock_now (6 * i + 4))

/-- The report of the image at position `i`: the timing line, then one line per
decoded keypoint. -/
def report (V : Vaal) (ctx : Ctx) (i : Nat) : List OutLine :=
  match V.detections i ctx with
  | none => []
  | some ks => timingLine V i :: rowsFrom 0 (ks.take max_keypoints)

/-- All three stages succeed for the image at position `i`. -/
def StagesPass (V : Vaal) (ctx : Ctx) (i : Nat) (image : String) : Prop :=
  V.vaal_load_image_file i ctx image = 0 ∧ V.vaal_run_model i ctx = 0 ∧
    (V.detections i ctx).isSome = true

instance (V : Vaal) (ctx : Ctx) (i : Nat) (image : String) :
    Decidable (StagesPass V ctx i image) := by
  unfold StagesPass; infer_instance

/-- Events of one iteration whose three stages succeed. -/
def passEvents (V : Vaal) (ctx : Ctx) (i : Nat) (image : String) : List Event :=
  [.vaal_clock_now, .vaal_load_image_file ctx image, .vaal_clock_now,
   .vaal_clock_now, .vaal_run_model ctx, .vaal_clock_now,
   .vaal_clock_now, .vaal_keypoints ctx max_keypoints, .vaal_clock_now]
  ++ (report V ctx i).map Event.stdout

/-- Events of consecutive iterations whose stages all succeed, the first image
being at position `i`. -/
def passTrace (V : Vaal) (ctx : Ctx) : Nat → List String → List Event
  | _, [] => []
  | i, image :: rest => passEvents V ctx i image ++ passTrace V ctx (i + 1) rest

/-- Events of an iteration whose load stage fails. -/
def loadFailEvents (V : Vaal) (ctx : Ctx) (i : Nat) (image : String) : List Event :=
  [.vaal_clock_now, .vaal_load_image_file ctx image,
   .vaal_strerror (V.vaal_load_image_file i ctx image),
   .stderr ("failed to load " ++ image ++ ": "
     ++ V.vaal_strerror (V.vaal_load_image_file i ctx image) ++ "\n")]

/-- Reports of `n` consecutive images, the first at position `i`. -/
def reportsFrom (V : Vaal) (ctx : Ctx) : Nat → Nat → List OutLine
  | _, 0 => []
  | i, n + 1 => report V ctx i ++ reportsFrom V ctx (i + 1) n

/-- Number of `vaal_run_model` calls. -/
def runCalls (es : List Event) : Nat :=
  (es.filter fun e => match e with
    | .vaal_run_model _ => true
    | _ => false).length

/-- Number of `vaal_keypoints` calls. -/
def keypointCalls (es : List Event) : Nat :=
  (es.filter fun e => match e with
    | .vaal_keypoints _ _ => true
    | _ => false).length

/-- Number of timing lines among output lines. -/
def timingLines (ls : List OutLine) : Nat :=
  (ls.filter fun l => match l with
    | .timing _ _ _ => true
    | _ => false).length

/-! ## Lemmas on the report loop -/

theorem rowsFrom_length (ks : List VAALKeypoint) :
    ∀ j, (rowsFrom j ks).length = ks.length := by
  induction ks with
  | nil => intro j; rfl
  | cons p ps ih => intro j; simp [rowsFrom, ih]

theorem rowsFrom_getElem? (ks : List VAALKeypoint) :
    ∀ j t, (rowsFrom j ks)[t]? =
      (ks[t]?).map fun p => OutLine.keypoint (j + t) (scorePercent p.score) p.x p.y := by
  induction ks with
  | nil => intro j t; simp [rowsFrom]
  | cons p ps ih =>
    intro j t
    cases t with
    | zero => simp [rowsFrom]
    | succ t =>
      simp only [rowsFrom, List.getElem?_cons_succ, ih]
      have : j + 1 + t = j + (t + 1) := by omega
      rw [this]

theorem map_range_rows (l r : List VAALKeypoint) :
    ∀ pre : List VAALKeypoint,
      (List.range' pre.length l.length).map (fun j =>
        let point := (pre ++ l ++ r).getD j VAALKeypoint.zero
        OutLine.keypoint j (scorePercent point.score) point.x point.y)
      = rowsFrom pre.length l := by
  induction l with
  | nil => intro pre; simp [rowsFrom]
  | cons p ps ih =>
    intro pre
    have h := ih (pre ++ [p])
    simp only [List.length_append, List.length_singleton, List.append_assoc,
      List.singleton_append] at h
    simp only [List.length_cons, List.range', List.map_cons, rowsFrom, List.append_assoc,
      List.cons_append]
    simp only [List.cons_append] at h
    rw [h]
    have hp : (pre ++ p :: (ps ++ r)).getD pre.length VAALKeypoint.zero = p := by
      rw [List.getD_eq_getElem?_getD, List.getElem?_append_right (Nat.le_refl _)]
      simp
    rw [hp]

theorem keypointRows_written (l r : List VAALKeypoint) :
    keypointRows (l ++ r) l.length = rowsFrom 0 l := by
  have h := map_range_rows l r []
  simp only [List.length_nil, List.nil_append] at h
  unfold keypointRows
  rw [List.range_eq_range']
  exact h

theorem poseImage_pass (V : Vaal) (ctx : Ctx) (i : Nat) (image : String) (st : LoopState)
    (ks : List VAALKeypoint)
    (h1 : V.vaal_load_image_file i ctx image = 0) (h2 : V.vaal_run_model i ctx = 0)
    (h3 : V.detections i ctx = some ks) :
    poseImage V ctx i image st =
      .next (passEvents V ctx i image)
        ⟨ks.take max_keypoints ++ st.keypoints.drop (ks.take max_keypoints).length,
         (ks.take max_keypoints).length⟩ := by
  simp only [poseImage, h1, h2, h3, vaal_keypoints, passEvents, report, timingLine,
    keypointRows_written]
  simp

theorem poseImage_load_fail (V : Vaal) (ctx : Ctx) (i : Nat) (image : String)
    (st : LoopState) (h : V.vaal_load_image_file i ctx image ≠ 0) :
    poseImage V ctx i image st = .exit (loadFailEvents V ctx i image) EXIT_FAILURE := by
  simp [poseImage, h, loadFailEvents]

theorem poseImages_pass_append (V : Vaal) (ctx : Ctx) (rest : List String) :
    ∀ (done : List String) (i : Nat) (st : LoopState),
      (∀ t image, done[t]? = some image → StagesPass V ctx (i + t) image) →
      ∃ st1, poseImages V ctx i (done ++ rest) st =
        ⟨passTrace V ctx i done ++ (poseImages V ctx (i + done.length) rest st1).trace,
         (poseImages V ctx (i + done.length) rest st1).status⟩ := by
  intro done
  induction done with
  | nil => intro i st _; exact ⟨st, by simp [passTrace]⟩
  | cons image done ih =>
    intro i st h
    obtain ⟨h1, h2, h3⟩ := h 0 image (by simp)
    rw [Nat.add_zero] at h1 h2 h3
    obtain ⟨ks, hks⟩ := Option.isSome_iff_exists.mp h3
    have hrest : ∀ t im, done[t]? = some im → StagesPass V ctx (i + 1 + t) im := by
      intro t im ht
      have := h (t + 1) im (by simpa using ht)
      have e : i + (t + 1) = i + 1 + t := by omega
      rwa [e] at this
    obtain ⟨st1, hst1⟩ := ih (i + 1)
      ⟨ks.take max_keypoints ++ st.keypoints.drop (ks.take max_keypoints).length,
       (ks.take max_keypoints).length⟩ hrest
    refine ⟨st1, ?_⟩
    have e : i + (image :: done).length = i + 1 + done.length := by
      simp only [List.length_cons]; omega
    rw [e]
    have hb := poseImage_pass V ctx i image st ks h1 h2 hks
    show poseImages V ctx i (image :: (done ++ rest)) st = _
    rw [poseImages, hb]
    simp only [hst1, passTrace, List.append_assoc]

theorem stdoutOf_append (a b : List Event) : stdoutOf (a ++ b) = stdoutOf a ++ stdoutOf b := by
  simp [stdoutOf]

theorem releasesOf_append (a b : List Event) :
    releasesOf (a ++ b) = releasesOf a ++ releasesOf b := by
  simp [releasesOf]

theorem probesOf_append (a b : List Event) : probesOf (a ++ b) = probesOf a ++ probesOf b := by
  simp [probesOf]

theorem imageLoadsOf_append (a b : List Event) :
    imageLoadsOf (a ++ b) = imageLoadsOf a ++ imageLoadsOf b := by
  simp [imageLoadsOf]

theorem runCalls_append (a b : List Event) : runCalls (a ++ b) = runCalls a + runCalls b := by
  simp [runCalls]

theorem keypointCalls_append (a b : List Event) :
    keypointCalls (a ++ b) = keypointCalls a + keypointCalls b := by
  simp [keypointCalls]

theorem stdoutOf_map_stdout (ls : List OutLine) : stdoutOf (ls.map Event.stdout) = ls := by
  induction ls with
  | nil => rfl
  | cons l ls ih => simpa [stdoutOf] using ih

theorem stdoutOf_passEvents (V : Vaal) (ctx : Ctx) (i : Nat) (image : String) :
    stdoutOf (passEvents V ctx i image) = report V ctx i := by
  unfold passEvents
  rw [stdoutOf_append, stdoutOf_map_stdout]
  simp [stdoutOf]

theorem stdoutOf_passTrace (V : Vaal) (ctx : Ctx) :
    ∀ (done : List String) (i : Nat),
      stdoutOf (passTrace V ctx i done) = reportsFrom V ctx i done.length := by
  intro done
  induction done with
  | nil => intro i; rfl
  | cons image done ih =>
    intro i
    simp only [passTrace, stdoutOf_append, stdoutOf_passEvents, ih, List.length_cons,
      reportsFrom]

theorem filterMap_map_stdout {β : Type} (f : Event → Option β)
    (h : ∀ l, f (.stdout l) = none) (ls : List OutLine) :
    (ls.map Event.stdout).filterMap f = [] := by
  induction ls with
  | nil => rfl
  | cons l ls ih => simp [List.filterMap_cons, h, ih]

theorem filter_map_stdout (p : Event → Bool) (h : ∀ l, p (.stdout l) = false)
    (ls : List OutLine) : (ls.map Event.stdout).filter p = [] := by
  induction ls with
  | nil => rfl
  | cons l ls ih => simp [List.filter_cons, h, ih]

theorem imageLoadsOf_passTrace (V : Vaal) (ctx : Ctx) :
    ∀ (done : List String) (i : Nat), imageLoadsOf (passTrace V ctx i done) = done := by
  intro done
  induction done with
  | nil => intro i; rfl
  | cons image done ih =>
    intro i
    simp only [passTrace, passEvents, imageLoadsOf_append, ih]
    simp [imageLoadsOf, filterMap_map_stdout]

theorem runCalls_passTrace (V : Vaal) (ctx : Ctx) :
    ∀ (done : List String) (i : Nat), runCalls (passTrace V ctx i done) = done.length := by
  intro done
  induction done with
  | nil => intro i; rfl
  | cons image done ih =>
    intro i
    simp only [passTrace, passEvents, runCalls_append, ih]
    simp [runCalls, filter_map_stdout]
    omega

theorem keypointCalls_passTrace (V : Vaal) (ctx : Ctx) :
    ∀ (done : List String) (i : Nat),
      keypointCalls (passTrace V ctx i done) = done.length := by
  intro done
  induction done with
  | nil => intro i; rfl
  | cons image done ih =>
    intro i
    simp only [passTrace, passEvents, keypointCalls_append, ih]
    simp [keypointCalls, filter_map_stdout]
    omega

theorem timingLines_append (a b : List OutLine) :
    timingLines (a ++ b) = timingLines a + timingLines b := by
  simp [timingLines]

theorem timingLines_rowsFrom (ks : List VAALKeypoint) :
    ∀ j, timingLines (rowsFrom j ks) = 0 := by
  induction ks with
  | nil => intro j; rfl
  | cons p ps ih =>
    intro j
    have := ih (j + 1)
    simp only [timingLines, List.length_eq_zero] at this
    simp [rowsFrom, timingLines, List.filter_cons, this]

theorem timingLines_report (V : Vaal) (ctx : Ctx) (i : Nat)
    (h : (V.detections i ctx).isSome = true) : timingLines (report V ctx i) = 1 := by
  obtain ⟨ks, hks⟩ := Option.isSome_iff_exists.mp h
  have := timingLines_rowsFrom (ks.take max_keypoints) 0
  simp only [timingLines, List.length_eq_zero] at this
  simp [report, hks, timingLine, timingLines, List.filter_cons, this]

theorem timingLines_reportsFrom (V : Vaal) (ctx : Ctx) :
    ∀ (n i : Nat), (∀ t, t < n → (V.detections (i + t) ctx).isSome = true) →
      timingLines (reportsFrom V ctx i n) = n := by
  intro n
  induction n with
  | zero => intro i _; rfl
  | succ n ih =>
    intro i h
    have h0 := h 0 (by omega)
    rw [Nat.add_zero] at h0
    have hn : ∀ t, t < n → (V.detections (i + 1 + t) ctx).isSome = true := by
      intro t ht
      have := h (t + 1) (by omega)
      have e : i + (t + 1) = i + 1 + t := by omega
      rwa [e] at this
    simp only [reportsFrom, timingLines_append, timingLines_report V ctx i h0, ih (i + 1) hn]
    omega

/-! ## Lemmas on acquisition and `main` -/

theorem acquire_direct (V : Vaal) (engine model : String)
    (h : V.vaal_load_model_file (V.vaal_context_create engine) model = 0) :
    acquire V engine model =
      ⟨[.vaal_context_create engine,
        .vaal_load_model_file (V.vaal_context_create engine) model], 0,
       some (V.vaal_context_create engine)⟩ := by
  simp [acquire, h]

theorem acquire_fallback (V : Vaal) (engine model : String)
    (h : V.vaal_load_model_file (V.vaal_context_create engine) model ≠ 0) :
    acquire V engine model =
      ⟨[.vaal_context_create engine,
        .vaal_load_model_file (V.vaal_context_create engine) model,
        .vaal_context_release (V.vaal_context_create engine),
        .vaal_model_probe engine model],
       V.vaal_load_model_file (V.vaal_context_create engine) model,
       if V.vaal_model_probe engine model = 0 then none
       else some (V.vaal_model_probe engine model)⟩ := by
  simp [acquire, h]

theorem stdoutOf_acquire (V : Vaal) (engine model : String) :
    stdoutOf (acquire V engine model).events = [] := by
  by_cases h : V.vaal_load_model_file (V.vaal_context_create engine) model = 0
  · rw [acquire_direct V engine model h]; simp [stdoutOf]
  · rw [acquire_fallback V engine model h]; simp [stdoutOf]

theorem imageLoadsOf_acquire (V : Vaal) (engine model : String) :
    imageLoadsOf (acquire V engine model).events = [] := by
  by_cases h : V.vaal_load_model_file (V.vaal_context_create engine) model = 0
  · rw [acquire_direct V engine model h]; simp [imageLoadsOf]
  · rw [acquire_fallback V engine model h]; simp [imageLoadsOf]

theorem runCalls_acquire (V : Vaal) (engine model : String) :
    runCalls (acquire V engine model).events = 0 := by
  by_cases h : V.vaal_load_model_file (V.vaal_context_create engine) model = 0
  · rw [acquire_direct V engine model h]; simp [runCalls]
  · rw [acquire_fallback V engine model h]; simp [runCalls]

theorem keypointCalls_acquire (V : Vaal) (engine model : String) :
    keypointCalls (acquire V engine model).events = 0 := by
  by_cases h : V.vaal_load_model_file (V.vaal_context_create engine) model = 0
  · rw [acquire_direct V engine model h]; simp [keypointCalls]
  · rw [acquire_fallback V engine model h]; simp [keypointCalls]

theorem main_loaded (V : Vaal) (opts : List GetOpt) (s : Settings) (model : String)
    (images : List String) (ctx : Ctx)
    (hparse : parseOptions V opts ⟨"npu", 0⟩ = .ok s)
    (hacq : (acquire V s.engine model).loaded = some ctx) :
    main V ⟨opts, model :: images⟩ =
      ⟨.calloc max_keypoints :: (acquire V s.engine model).events ++
        .vaal_parameter_seti ctx "normalization" [s.norm] 1 ::
        (poseImages V ctx 0 images
          ⟨List.replicate max_keypoints VAALKeypoint.zero, 0⟩).trace,
       (poseImages V ctx 0 images
          ⟨List.replicate max_keypoints VAALKeypoint.zero, 0⟩).status⟩ := by
  simp only [main, hparse, hacq, runLoaded, List.cons_append]

theorem main_not_loaded (V : Vaal) (opts : List GetOpt) (s : Settings) (model : String)
    (images : List String)
    (hparse : parseOptions V opts ⟨"npu", 0⟩ = .ok s)
    (hacq : (acquire V s.engine model).loaded = none) :
    main V ⟨opts, model :: images⟩ =
      ⟨.calloc max_keypoints :: (acquire V s.engine model).events ++
        [.vaal_strerror (acquire V s.engine model).err,
         .stderr ("failed to load model: "
           ++ V.vaal_strerror (acquire V s.engine model).err ++ "\n")],
       EXIT_FAILURE⟩ := by
  simp only [main, hparse, hacq, List.cons_append]

theorem list_split_at (images : List String) (n : Nat) (bad : String)
    (h : images[n]? = some bad) :
    images = images.take n ++ bad :: images.drop (n + 1) ∧ (images.take n).length = n ∧
      images.take (n + 1) = images.take n ++ [bad] := by
  obtain ⟨hn, hb⟩ := List.getElem?_eq_some.mp h
  refine ⟨?_, ?_, ?_⟩
  · rw [← hb, ← List.drop_eq_getElem_cons hn, List.take_append_drop]
  · simp; omega
  · rw [← hb, List.take_succ, List.getElem?_eq_getElem hn]; rfl

theorem poseImage_run_fail (V : Vaal) (ctx : Ctx) (i : Nat) (image : String)
    (st : LoopState) (h1 : V.vaal_load_image_file i ctx image = 0)
    (h2 : V.vaal_run_model i ctx ≠ 0) :
    poseImage V ctx i image st =
      .exit [.vaal_clock_now, .vaal_load_image_file ctx image, .vaal_clock_now,
             .vaal_clock_now, .vaal_run_model ctx, .vaal_clock_now,
             .vaal_strerror (V.vaal_run_model i ctx),
             .stderr ("failed to run model: "
               ++ V.vaal_strerror (V.vaal_run_model i ctx) ++ "\n")]
        EXIT_FAILURE := by
  simp [poseImage, h1, h2]

theorem poseImage_decode_fail (V : Vaal) (ctx : Ctx) (i : Nat) (image : String)
    (st : LoopState) (h1 : V.vaal_load_image_file i ctx image = 0)
    (h2 : V.vaal_run_model i ctx = 0) (h3 : V.detections i ctx = none) :
    poseImage V ctx i image st =
      .exit [.vaal_clock_now, .vaal_load_image_file ctx image, .vaal_clock_now,
             .vaal_clock_now, .vaal_run_model ctx, .vaal_clock_now,
             .vaal_clock_now, .vaal_keypoints ctx max_keypoints,
             .stdout (.text "Keypoint detection failed.\n")]
        EXIT_FAILURE := by
  simp [poseImage, h1, h2, h3, vaal_keypoints]

theorem report_inLoop (V : Vaal) (ctx : Ctx) (i : Nat) :
    ∀ e ∈ (report V ctx i).map Event.stdout, e.inLoop ctx := by
  intro e he
  unfold report at he
  cases h3 : V.detections i ctx with
  | none => simp [h3] at he
  | some ks =>
    simp only [h3, List.map_cons, List.mem_cons] at he
    rcases he with rfl | he
    · simp [timingLine, Event.inLoop]
    · simp only [List.mem_map] at he
      obtain ⟨l, hl, rfl⟩ := he
      obtain ⟨t, ht, hlt⟩ := List.getElem_of_mem hl
      have hlen := rowsFrom_length (ks.take max_keypoints) 0
      have hq := rowsFrom_getElem? (ks.take max_keypoints) 0 t
      rw [List.getElem?_eq_getElem ht, hlt] at hq
      have htk : t < (ks.take max_keypoints).length := by omega
      rw [List.getElem?_eq_getElem htk] at hq
      simp only [Option.map, Option.some.injEq, Nat.zero_add] at hq
      rw [hq]
      show t < max_keypoints
      have : (ks.take max_keypoints).length ≤ max_keypoints := by simp [List.length_take]
      omega

theorem poseImage_inLoop (V : Vaal) (ctx : Ctx) (i : Nat) (image : String)
    (st : LoopState) : ∀ e ∈ (poseImage V ctx i image st).events, e.inLoop ctx := by
  intro e he
  by_cases h1 : V.vaal_load_image_file i ctx image = 0
  · by_cases h2 : V.vaal_run_model i ctx = 0
    · cases h3 : V.detections i ctx with
      | none =>
        rw [poseImage_decode_fail V ctx i image st h1 h2 h3] at he
        simp only [Iteration.events, List.mem_cons, List.not_mem_nil, or_false] at he
        rcases he with rfl | rfl | rfl | rfl | rfl | rfl | rfl | rfl | rfl <;>
          simp [Event.inLoop]
      | some ks =>
        rw [poseImage_pass V ctx i image st ks h1 h2 h3] at he
        simp only [Iteration.events, passEvents, List.mem_append] at he
        rcases he with he | he
        · simp only [List.mem_cons, List.not_mem_nil, or_false] at he
          rcases he with rfl | rfl | rfl | rfl | rfl | rfl | rfl | rfl | rfl <;>
            simp [Event.inLoop]
        · exact report_inLoop V ctx i e he
    · rw [poseImage_run_fail V ctx i image st h1 h2] at he
      simp only [Iteration.events, List.mem_cons, List.not_mem_nil, or_false] at he
      rcases he with rfl | rfl | rfl | rfl | rfl | rfl | rfl | rfl <;> simp [Event.inLoop]
  · rw [poseImage_load_fail V ctx i image st h1] at he
    simp only [Iteration.events, loadFailEvents, List.mem_cons, List.not_mem_nil,
      or_false] at he
    rcases he with rfl | rfl | rfl | rfl <;> simp [Event.inLoop]

theorem poseImages_inLoop (V : Vaal) (ctx : Ctx) :
    ∀ (images : List String) (i : Nat) (st : LoopState),
      ∀ e ∈ (poseImages V ctx i images st).trace, e.inLoop ctx := by
  intro images
  induction images with
  | nil =>
    intro i st e he
    simp only [poseImages, List.mem_cons, List.mem_singleton, List.not_mem_nil, or_false] at he
    rcases he with rfl | rfl <;> simp [Event.inLoop]
  | cons image rest ih =>
    intro i st e he
    have hb := poseImage_inLoop V ctx i image st
    rw [poseImages] at he
    cases hp : poseImage V ctx i image st with
    | exit events status =>
      rw [hp] at he hb
      exact hb e he
    | next events st1 =>
      rw [hp] at he hb
      simp only [List.mem_append] at he
      rcases he with he | he
      · exact hb e he
      · exact ih (i + 1) st1 e he

theorem probesOf_inLoop (ctx : Ctx) :
    ∀ es : List Event, (∀ e ∈ es, e.inLoop ctx) → probesOf es = [] := by
  intro es
  induction es with
  | nil => intro _; rfl
  | cons e es ih =>
    intro h
    have he := h e (List.mem_cons_self _ _)
    have hes := ih fun x hx => h x (List.mem_cons_of_mem _ hx)
    unfold probesOf at hes ⊢
    cases e <;> simp_all [Event.inLoop]

theorem isParameterCall_inLoop (ctx : Ctx) (e : Event) (h : e.inLoop ctx) :
    e.isParameterCall = false := by
  cases e <;> simp_all [Event.inLoop, Event.isParameterCall]

/-! ## Lemmas on the score conversion -/

theorem bitLengthAux_spec : ∀ (fuel n : Nat), n ≤ fuel →
    n < 2 ^ bitLengthAux fuel n ∧ (n ≠ 0 → 2 ^ (bitLengthAux fuel n - 1) ≤ n) := by
  intro fuel
  induction fuel with
  | zero =>
    intro n hn
    have : n = 0 := by omega
    subst this
    simp [bitLengthAux]
  | succ fuel ih =>
    intro n hn
    rw [bitLengthAux]
    by_cases h0 : n = 0
    · simp [h0]
    · rw [if_neg h0]
      have hle : n / 2 ≤ fuel := by omega
      obtain ⟨hlt, hge⟩ := ih (n / 2) hle
      refine ⟨?_, fun _ => ?_⟩
      · rw [Nat.pow_succ]; omega
      · rw [Nat.add_sub_cancel]
        by_cases h2 : n / 2 = 0
        · have h1 : n = 1 := by omega
          subst h1
          have : bitLengthAux fuel (1 / 2) = 0 := by
            cases fuel <;> simp [bitLengthAux]
          rw [this]; simp
        · have hpos : 0 < bitLengthAux fuel (n / 2) := by
            by_contra hc
            have : bitLengthAux fuel (n / 2) = 0 := by omega
            rw [this] at hlt
            simp at hlt
            exact h2 hlt
          have := hge h2
          have e : bitLengthAux fuel (n / 2) = (bitLengthAux fuel (n / 2) - 1) + 1 := by omega
          rw [e, Nat.pow_succ]
          omega

theorem bitLength_spec (n : Nat) (h : n ≠ 0) :
    2 ^ (bitLength n - 1) ≤ n ∧ n < 2 ^ bitLength n := by
  have := bitLengthAux_spec n n (Nat.le_refl n)
  exact ⟨this.2 h, this.1⟩

theorem round24_small (b : Binary) (h : b.m < 2 ^ 24) : round24 b = b := by
  rw [round24, if_pos h]

theorem round_core (m s q r m1 : Nat) (hs : 1 ≤ s) (hq : q = m / 2 ^ s) (hr : r = m % 2 ^ s)
    (hm1 : m1 = if (decide (2 ^ (s - 1) < r) || (decide (r = 2 ^ (s - 1)) && decide (q % 2 = 1)))
      then q + 1 else q) :
    2 * |((m1 * 2 ^ s : Nat) : Int) - (m : Int)| ≤ ((2 ^ s : Nat) : Int) := by
  have hX : 2 ^ s = 2 * 2 ^ (s - 1) := by
    have e : s = (s - 1) + 1 := by omega
    conv_lhs => rw [e, Nat.pow_succ]
    omega
  have hdm : 2 ^ s * q + r = m := by rw [hq, hr]; exact Nat.div_add_mod m (2 ^ s)
  have hrlt : r < 2 ^ s := by rw [hr]; exact Nat.mod_lt _ (Nat.two_pow_pos s)
  generalize 2 ^ (s - 1) = H at hX hm1
  generalize 2 ^ s = X at hX hdm hrlt ⊢
  split at hm1
  · rename_i hup
    have hge : H ≤ r := by
      simp only [Bool.or_eq_true, Bool.and_eq_true, decide_eq_true_eq] at hup
      rcases hup with h | h <;> omega
    rw [hm1, ← hdm]
    have ea : (((q + 1) * X : Nat) : Int) - ((X * q + r : Nat) : Int) = (X : Int) - r := by
      push_cast; ring
    rw [ea, abs_of_nonneg (by omega)]
    omega
  · rename_i hup
    have hle : r ≤ H := by
      simp only [Bool.or_eq_true, Bool.and_eq_true, decide_eq_true_eq, not_or] at hup
      omega
    rw [hm1, ← hdm]
    have ea : ((q * X : Nat) : Int) - ((X * q + r : Nat) : Int) = -(r : Int) := by
      push_cast; ring
    rw [ea, abs_neg, abs_of_nonneg (by omega)]
    omega

theorem round24_nearest (b : Binary) (h : 2 ^ 24 ≤ b.m) :
    2 ^ 23 ≤ (round24 b).m ∧ (round24 b).m ≤ 2 ^ 24 ∧
      |(round24 b).toRat - b.toRat| ≤ (2 : ℚ) ^ (round24 b).e / 2 := by
  obtain ⟨hlo, hhi⟩ := bitLength_spec b.m (by
    have : 0 < 2 ^ 24 := by decide
    omega)
  have hL : 24 < bitLength b.m := by
    by_contra hc
    have : 2 ^ bitLength b.m ≤ 2 ^ 24 := Nat.pow_le_pow_right (by decide) (by omega)
    omega
  obtain ⟨s, hs⟩ : ∃ s, bitLength b.m = s + 24 := ⟨bitLength b.m - 24, by omega⟩
  have hs1 : 1 ≤ s := by omega
  have hshift : bitLength b.m - 24 = s := by omega
  rw [hs] at hhi hlo
  have e1 : s + 24 - 1 = s + 23 := by omega
  rw [e1] at hlo
  rw [Nat.pow_add] at hhi hlo
  have hqlo : 2 ^ 23 ≤ b.m / 2 ^ s := by
    rw [Nat.le_div_iff_mul_le (Nat.two_pow_pos s)]
    rw [Nat.mul_comm]; exact hlo
  have hqhi : b.m / 2 ^ s < 2 ^ 24 := by
    rw [Nat.div_lt_iff_lt_mul (Nat.two_pow_pos s)]
    rw [Nat.mul_comm]; exact hhi
  have hr : round24 b = ⟨b.neg,
      if (decide (2 ^ (s - 1) < b.m % 2 ^ s) ||
          (decide (b.m % 2 ^ s = 2 ^ (s - 1)) && decide (b.m / 2 ^ s % 2 = 1)))
        then b.m / 2 ^ s + 1 else b.m / 2 ^ s, b.e + s⟩ := by
    rw [round24, if_neg (by omega)]
    simp only [hshift]
  have hcore := round_core b.m s (b.m / 2 ^ s) (b.m % 2 ^ s) _ hs1 rfl rfl rfl
  rw [hr]
  generalize hm : (if (decide (2 ^ (s - 1) < b.m % 2 ^ s) ||
          (decide (b.m % 2 ^ s = 2 ^ (s - 1)) && decide (b.m / 2 ^ s % 2 = 1)))
        then b.m / 2 ^ s + 1 else b.m / 2 ^ s) = m1 at hcore ⊢
  have hm1 : m1 = b.m / 2 ^ s ∨ m1 = b.m / 2 ^ s + 1 := by
    rw [← hm]
    split
    · exact Or.inr rfl
    · exact Or.inl rfl
  refine ⟨?_, ?_, ?_⟩
  · show 2 ^ 23 ≤ m1
    omega
  · show m1 ≤ 2 ^ 24
    omega
  · show |Binary.toRat ⟨b.neg, m1, b.e + s⟩ - b.toRat| ≤ (2 : ℚ) ^ (b.e + (s : Int)) / 2
    have hz : (2 : ℚ) ^ (b.e + (s : Int)) = 2 ^ b.e * 2 ^ s := by
      rw [zpow_add₀ (by norm_num), zpow_natCast]
    have hpos : (0 : ℚ) < 2 ^ b.e := zpow_pos (by norm_num) _
    have hq : (2 : ℚ) * |(m1 : ℚ) * 2 ^ s - (b.m : ℚ)| ≤ 2 ^ s := by
      have := hcore
      have c : (((2 * |((m1 * 2 ^ s : Nat) : Int) - (b.m : Int)| : Int) : ℚ)) ≤
          (((2 ^ s : Nat) : Int) : ℚ) := by exact_mod_cast this
      push_cast at c
      exact c
    have hd : Binary.toRat ⟨b.neg, m1, b.e + s⟩ - b.toRat =
        (if b.neg then -1 else 1) * (2 ^ b.e * ((m1 : ℚ) * 2 ^ s - (b.m : ℚ))) := by
      simp only [Binary.toRat, hz]
      ring
    rw [hd, hz, abs_mul, abs_mul, abs_of_pos hpos]
    have hsig : |(if b.neg then (-1 : ℚ) else 1)| = 1 := by
      cases b.neg <;> simp
    rw [hsig, one_mul]
    have : (2 : ℚ) ^ b.e * |(m1 : ℚ) * 2 ^ s - (b.m : ℚ)| ≤ 2 ^ b.e * (2 ^ s / 2) := by
      apply mul_le_mul_of_nonneg_left _ hpos.le
      linarith
    linarith

theorem round24_tie_even (b : Binary) (h : 2 ^ 24 ≤ b.m)
    (htie : b.m % 2 ^ (bitLength b.m - 24) = 2 ^ (bitLength b.m - 24 - 1)) :
    (round24 b).m % 2 = 0 := by
  rw [round24, if_neg (by omega)]
  simp only [htie, lt_self_iff_false, decide_False, decide_True, Bool.true_and,
    Bool.false_or, decide_eq_true_eq]
  split <;> omega

theorem mul100_nearest (b : Binary) :
    |(mul100 b).toRat - b.toRat * 100| ≤
      if b.m * 100 < 2 ^ 24 then 0 else (2 : ℚ) ^ (mul100 b).e / 2 := by
  have hv : Binary.toRat ⟨b.neg, b.m * 100, b.e⟩ = b.toRat * 100 := by
    simp only [Binary.toRat]
    push_cast
    ring
  by_cases h : b.m * 100 < 2 ^ 24
  · rw [if_pos h, mul100, round24_small _ h, hv]
    simp
  · rw [if_neg h, mul100, ← hv]
    exact (round24_nearest ⟨b.neg, b.m * 100, b.e⟩ (by simpa using h)).2.2

theorem floor_magnitude (m : Nat) (e : Int) :
    ⌊(m : ℚ) * (2 : ℚ) ^ e⌋ =
      ((if 0 ≤ e then m * 2 ^ e.toNat else m / 2 ^ (-e).toNat : Nat) : Int) := by
  by_cases he : 0 ≤ e
  · obtain ⟨k, rfl⟩ := Int.eq_ofNat_of_zero_le he
    simp only [he, ↓reduceIte, Int.toNat_ofNat, zpow_natCast]
    have : (m : ℚ) * 2 ^ k = ((m * 2 ^ k : Nat) : ℚ) := by push_cast; ring
    rw [this, Int.floor_natCast]
  · have hneg : 0 ≤ -e := by omega
    obtain ⟨k, hk⟩ := Int.eq_ofNat_of_zero_le hneg
    have hek : e = -(k : Int) := by omega
    subst hek
    simp only [he, ↓reduceIte, neg_neg, Int.toNat_ofNat, zpow_neg, zpow_natCast]
    have : (m : ℚ) * ((2 : ℚ) ^ k)⁻¹ = (m : ℚ) / ((2 ^ k : Nat) : ℚ) := by
      push_cast; ring
    rw [this, Rat.floor_natCast_div_natCast]
    norm_cast

theorem truncToInt_eq (b : Binary) (v : Int) (h : truncToInt b = some v) :
    v = (if b.neg then -1 else 1) * ⌊(b.m : ℚ) * (2 : ℚ) ^ b.e⌋ ∧
      -(2 : Int) ^ 31 ≤ v ∧ v < (2 : Int) ^ 31 := by
  rw [truncToInt] at h
  have hfl := floor_magnitude b.m b.e
  generalize (if 0 ≤ b.e then b.m * 2 ^ b.e.toNat else b.m / 2 ^ (-b.e).toNat : Nat) = n
    at h hfl
  rw [hfl]
  by_cases hr : -(2 : Int) ^ 31 ≤ (if b.neg then -(n : Int) else (n : Int)) ∧
      (if b.neg then -(n : Int) else (n : Int)) < (2 : Int) ^ 31
  · rw [if_pos hr] at h
    simp only [Option.some.injEq] at h
    rw [← h]
    refine ⟨?_, hr⟩
    cases b.neg <;> simp
  · rw [if_neg hr] at h
    cases h

theorem round24_neg (b : Binary) : (round24 b).neg = b.neg := by
  unfold round24
  split <;> rfl

theorem mul100_neg (b : Binary) : (mul100 b).neg = b.neg := by
  unfold mul100
  rw [round24_neg]

/-! ## Lemmas on the option loop -/

theorem parseNorm_none (V : Vaal) (tok : String)
    (h : tok ∉ ["raw", "unsigned", "signed", "whitening", "imagenet"]) :
    parseNorm V tok = none := by
  simp only [List.mem_cons, List.not_mem_nil, or_false, not_or] at h
  obtain ⟨h1, h2, h3, h4, h5⟩ := h
  simp [parseNorm, h1, h2, h3, h4, h5]

theorem parseOptions_cons (V : Vaal) (o : GetOpt) (rest : List GetOpt) (st : Settings) :
    parseOptions V (o :: rest) st =
      if o.opt = 'h' then
        .error ⟨[.stdout (.text USAGE)], EXIT_SUCCESS⟩
      else if o.opt = 'v' then
        .error ⟨[.vaal_version,
                 .stdout (.text ("DeepView VisionPack Detection Sample with VAAL "
                   ++ V.vaal_version ++ "\n"))], EXIT_SUCCESS⟩
      else if o.opt = 'n' then
        match parseNorm V o.optarg with
        | some n => parseOptions V rest { st with norm := n }
        | none =>
          .error ⟨[.stderr ("unsupported image normalization method: "
                     ++ o.optarg ++ "\n")], EXIT_FAILURE⟩
      else if o.opt = 'e' then
        parseOptions V rest { st with engine := o.optarg }
      else
        .error ⟨[.stderr ("invalid parameter " ++ String.singleton o.opt
                   ++ ", try --help for usage\n")], EXIT_FAILURE⟩ := by
  rw [parseOptions]

theorem parseOptions_append (V : Vaal) (post : List GetOpt) :
    ∀ (pre : List GetOpt) (st s : Settings), parseOptions V pre st = .ok s →
      parseOptions V (pre ++ post) st = parseOptions V post s := by
  intro pre
  induction pre with
  | nil =>
    intro st s h
    simp only [parseOptions, Except.ok.injEq] at h
    rw [h]; rfl
  | cons o rest ih =>
    intro st s h
    simp only [List.cons_append]
    rw [parseOptions_cons] at h ⊢
    by_cases hh : o.opt = 'h'
    · simp [hh] at h
    · by_cases hv : o.opt = 'v'
      · simp [hv] at h
      · by_cases hn : o.opt = 'n'
        · simp only [hn, Char.reduceEq, ↓reduceIte] at h ⊢
          cases hp : parseNorm V o.optarg with
          | none => simp [hp] at h
          | some code =>
            simp only [hp] at h ⊢
            exact ih _ s h
        · by_cases he : o.opt = 'e'
          · simp only [he, Char.reduceEq, ↓reduceIte] at h ⊢
            exact ih _ s h
          · simp [hh, hv, hn, he] at h

theorem parseOptions_norm_option (V : Vaal) (post : List GetOpt) (tok : String)
    (st : Settings) :
    parseOptions V (⟨'n', tok⟩ :: post) st =
      match parseNorm V tok with
      | some code => parseOptions V post { st with norm := code }
      | none => .error ⟨[.stderr ("unsupported image normalization method: "
                  ++ tok ++ "\n")], EXIT_FAILURE⟩ := by
  rw [parseOptions_cons]
  simp

theorem parseOptions_keeps_norm (V : Vaal) :
    ∀ (opts : List GetOpt) (st s : Settings), (∀ o ∈ opts, o.opt ≠ 'n') →
      parseOptions V opts st = .ok s → s.norm = st.norm := by
  intro opts
  induction opts with
  | nil =>
    intro st s _ h
    simp only [parseOptions, Except.ok.injEq] at h
    rw [h]
  | cons o rest ih =>
    intro st s hno h
    have hn : o.opt ≠ 'n' := hno o (List.mem_cons_self _ _)
    have hrest : ∀ x ∈ rest, x.opt ≠ 'n' := fun x hx => hno x (List.mem_cons_of_mem _ hx)
    rw [parseOptions_cons] at h
    by_cases hh : o.opt = 'h'
    · simp [hh] at h
    · by_cases hv : o.opt = 'v'
      · simp [hv] at h
      · by_cases he : o.opt = 'e'
        · simp only [he, Char.reduceEq, ↓reduceIte] at h
          exact (ih ⟨o.optarg, st.norm⟩ s hrest h :)
        · simp [hh, hv, hn, he] at h

theorem parseOptions_error (V : Vaal) :
    ∀ (opts : List GetOpt) (st : Settings) (r : Run), parseOptions V opts st = .error r →
      (∃ text, r = ⟨[.stderr text], EXIT_FAILURE⟩) ∨
      r = ⟨[.stdout (.text USAGE)], EXIT_SUCCESS⟩ ∨
      r = ⟨[.vaal_version,
            .stdout (.text ("DeepView VisionPack Detection Sample with VAAL "
              ++ V.vaal_version ++ "\n"))], EXIT_SUCCESS⟩ := by
  intro opts
  induction opts with
  | nil => intro st r h; simp [parseOptions] at h
  | cons o rest ih =>
    intro st r h
    rw [parseOptions_cons] at h
    by_cases hh : o.opt = 'h'
    · simp only [hh, ↓reduceIte, Except.error.injEq] at h
      exact Or.inr (Or.inl h.symm)
    · by_cases hv : o.opt = 'v'
      · simp only [hv, Char.reduceEq, ↓reduceIte, Except.error.injEq] at h
        exact Or.inr (Or.inr h.symm)
      · by_cases hn : o.opt = 'n'
        · simp only [hn, Char.reduceEq, ↓reduceIte] at h
          cases hp : parseNorm V o.optarg with
          | none =>
            simp only [hp, Except.error.injEq] at h
            exact Or.inl ⟨_, h.symm⟩
          | some code =>
            simp only [hp] at h
            exact ih _ r h
        · by_cases he : o.opt = 'e'
          · simp only [he, Char.reduceEq, ↓reduceIte] at h
            exact ih _ r h
          · simp only [hh, hv, hn, he, ↓reduceIte, Except.error.injEq] at h
            exact Or.inl ⟨_, h.symm⟩

theorem parseOptions_bad_norm (V : Vaal) (tok : String)
    (htok : parseNorm V tok = none) :
    ∀ (opts : List GetOpt) (st : Settings), ⟨'n', tok⟩ ∈ opts →
      ∃ r, parseOptions V opts st = .error r := by
  intro opts
  induction opts with
  | nil => intro st h; cases h
  | cons o rest ih =>
    intro st h
    rw [parseOptions_cons]
    by_cases hh : o.opt = 'h'
    · exact ⟨_, by rw [if_pos hh]⟩
    · by_cases hv : o.opt = 'v'
      · exact ⟨_, by rw [if_neg hh, if_pos hv]⟩
      · by_cases hn : o.opt = 'n'
        · rw [if_neg hh, if_neg hv, if_pos hn]
          cases hp : parseNorm V o.optarg with
          | none => exact ⟨_, rfl⟩
          | some code =>
            rcases List.mem_cons.mp h with h0 | h0
            · rw [← h0] at hp
              rw [htok] at hp
              cases hp
            · exact ih _ h0
        · have hne : (⟨'n', tok⟩ : GetOpt) ≠ o := by
            intro h0; rw [← h0] at hn; exact hn rfl
          have h0 : ⟨'n', tok⟩ ∈ rest := by
            rcases List.mem_cons.mp h with h0 | h0
            · exact absurd h0 hne
            · exact h0
          by_cases he : o.opt = 'e'
          · rw [if_neg hh, if_neg hv, if_neg hn, if_pos he]
            exact ih _ h0
          · exact ⟨_, by rw [if_neg hh, if_neg hv, if_neg hn, if_neg he]⟩

theorem main_parse_error (V : Vaal) (opts : List GetOpt) (operands : List String) (r : Run)
    (h : parseOptions V opts ⟨"npu", 0⟩ = .error r) : main V ⟨opts, operands⟩ = r := by
  simp only [main, h]

theorem withinCapacity_inLoop (ctx : Ctx) (e : Event) (h : e.inLoop ctx) :
    e.withinCapacity := by
  cases e with
  | stdout l => cases l <;> simp_all [Event.inLoop, Event.withinCapacity]
  | _ => simp_all [Event.inLoop, Event.withinCapacity]

theorem main_withinCapacity (V : Vaal) (cmd : CommandLine) :
    ∀ e ∈ (main V cmd).trace, e.withinCapacity := by
  obtain ⟨opts, operands⟩ := cmd
  cases hparse : parseOptions V opts ⟨"npu", 0⟩ with
  | error r =>
    rw [main_parse_error V opts operands r hparse]
    rcases parseOptions_error V opts _ r hparse with ⟨t, rfl⟩ | rfl | rfl <;>
      simp [Event.withinCapacity]
  | ok s =>
    cases operands with
    | nil => simp [main, hparse, Event.withinCapacity]
    | cons model images =>
      have hacqev : ∀ e ∈ (acquire V s.engine model).events, e.withinCapacity := by
        by_cases h : V.vaal_load_model_file (V.vaal_context_create s.engine) model = 0
        · rw [acquire_direct V s.engine model h]; simp [Event.withinCapacity]
        · rw [acquire_fallback V s.engine model h]; simp [Event.withinCapacity]
      cases hacq : (acquire V s.engine model).loaded with
      | none =>
        rw [main_not_loaded V opts s model images hparse hacq]
        intro e he
        simp only [List.cons_append, List.mem_cons, List.mem_append, List.not_mem_nil,
          or_false] at he
        rcases he with rfl | he | rfl | rfl
        · rfl
        · exact hacqev e he
        · trivial
        · trivial
      | some ctx =>
        rw [main_loaded V opts s model images ctx hparse hacq]
        intro e he
        simp only [List.cons_append, List.mem_cons, List.mem_append] at he
        rcases he with rfl | he | rfl | he
        · rfl
        · exact hacqev e he
        · trivial
        · exact withinCapacity_inLoop ctx e (poseImages_inLoop V ctx images 0 _ e he)

theorem releasesOf_passEvents (V : Vaal) (ctx : Ctx) (i : Nat) (image : String) :
    releasesOf (passEvents V ctx i image) = [] := by
  simp [passEvents, releasesOf, filterMap_map_stdout]

/-- The loop releases the context exactly when it runs to completion: every
exit from inside the loop returns without `vaal_context_release`. -/
theorem poseImages_releases (V : Vaal) (ctx : Ctx) :
    ∀ (images : List String) (i : Nat) (st : LoopState),
      releasesOf (poseImages V ctx i images st).trace =
        if (poseImages V ctx i images st).status = EXIT_SUCCESS then [ctx] else [] := by
  intro images
  induction images with
  | nil => intro i st; simp [poseImages, releasesOf]
  | cons image rest ih =>
    intro i st
    rw [poseImages]
    by_cases h1 : V.vaal_load_image_file i ctx image = 0
    · by_cases h2 : V.vaal_run_model i ctx = 0
      · cases h3 : V.detections i ctx with
        | none =>
          rw [poseImage_decode_fail V ctx i image st h1 h2 h3]
          simp [releasesOf, EXIT_FAILURE, EXIT_SUCCESS]
        | some ks =>
          rw [poseImage_pass V ctx i image st ks h1 h2 h3]
          simp only [releasesOf_append, releasesOf_passEvents, List.nil_append]
          exact ih (i + 1) _
      · rw [poseImage_run_fail V ctx i image st h1 h2]
        simp [releasesOf, EXIT_FAILURE, EXIT_SUCCESS]
    · rw [poseImage_load_fail V ctx i image st h1]
      simp [releasesOf, loadFailEvents, EXIT_FAILURE, EXIT_SUCCESS]

/-! ## Claims -/

/-- C1 (evaluation at failing inputs): with one image whose load, inference or
decode fails, `main` creates a context, returns `EXIT_FAILURE`, and never calls
`vaal_context_release`; the same command on an engine where all stages succeed
releases the context once.  On every engine the image loop releases the context
exactly when it ends with `EXIT_SUCCESS`. -/
theorem error_exits_skip_release :
    ((main imageLoadFails ⟨[], ["pose.rtm", "a.jpg"]⟩).status = EXIT_FAILURE ∧
      createsOf (main imageLoadFails ⟨[], ["pose.rtm", "a.jpg"]⟩).trace = ["npu"] ∧
      releasesOf (main imageLoadFails ⟨[], ["pose.rtm", "a.jpg"]⟩).trace = []) ∧
    ((main inferenceFails ⟨[], ["pose.rtm", "a.jpg"]⟩).status = EXIT_FAILURE ∧
      createsOf (main inferenceFails ⟨[], ["pose.rtm", "a.jpg"]⟩).trace = ["npu"] ∧
      releasesOf (main inferenceFails ⟨[], ["pose.rtm", "a.jpg"]⟩).trace = []) ∧
    ((main decodeFails ⟨[], ["pose.rtm", "a.jpg"]⟩).status = EXIT_FAILURE ∧
      createsOf (main decodeFails ⟨[], ["pose.rtm", "a.jpg"]⟩).trace = ["npu"] ∧
      releasesOf (main decodeFails ⟨[], ["pose.rtm", "a.jpg"]⟩).trace = []) ∧
    ((main sampleVaal ⟨[], ["pose.rtm", "a.jpg"]⟩).status = EXIT_SUCCESS ∧
      releasesOf (main sampleVaal ⟨[], ["pose.rtm", "a.jpg"]⟩).trace = [1]) ∧
    (∀ (V : Vaal) (ctx : Ctx) (images : List String) (i : Nat) (st : LoopState),
      releasesOf (poseImages V ctx i images st).trace =
        if (poseImages V ctx i images st).status = EXIT_SUCCESS then [ctx] else []) := by
  refine ⟨by decide, by decide, by decide, by decide, ?_⟩
  intro V ctx images i st
  exact poseImages_releases V ctx images i st

/-- C2: for every command line whose options parse, with engine name
`s.engine` and model path `model`: if the direct `vaal_load_model_file` on the
context created for that engine fails, the run starts with create, load, release
of the created context, and `vaal_model_probe` with the same engine name and
model path, in this order, and no further probe call follows (so the probe is
called exactly once); if the direct load succeeds, the probe is never called.
Every engine name can be requested: `-e name` sets `engine` to `name`. -/
theorem probe_fallback_once (V : Vaal) (opts : List GetOpt) (s : Settings)
    (model : String) (images : List String)
    (hparse : parseOptions V opts ⟨"npu", 0⟩ = .ok s) :
    (V.vaal_load_model_file (V.vaal_context_create s.engine) model ≠ 0 →
      (∃ rest, (main V ⟨opts, model :: images⟩).trace =
          [.calloc max_keypoints, .vaal_context_create s.engine,
           .vaal_load_model_file (V.vaal_context_create s.engine) model,
           .vaal_context_release (V.vaal_context_create s.engine),
           .vaal_model_probe s.engine model] ++ rest ∧ probesOf rest = []) ∧
      probesOf (main V ⟨opts, model :: images⟩).trace = [(s.engine, model)]) ∧
    (V.vaal_load_model_file (V.vaal_context_create s.engine) model = 0 →
      probesOf (main V ⟨opts, model :: images⟩).trace = []) ∧
    (∀ name : String, parseOptions V [⟨'e', name⟩] ⟨"npu", 0⟩ = .ok ⟨name, 0⟩) := by
  refine ⟨?_, ?_, fun name => by simp [parseOptions_cons, parseOptions]⟩
  · intro hfail
    have ha := acquire_fallback V s.engine model hfail
    have hex : ∃ rest, (main V ⟨opts, model :: images⟩).trace =
        [.calloc max_keypoints, .vaal_context_create s.engine,
         .vaal_load_model_file (V.vaal_context_create s.engine) model,
         .vaal_context_release (V.vaal_context_create s.engine),
         .vaal_model_probe s.engine model] ++ rest ∧ probesOf rest = [] := by
      by_cases hp : V.vaal_model_probe s.engine model = 0
      · have hl : (acquire V s.engine model).loaded = none := by rw [ha]; simp [hp]
        rw [main_not_loaded V opts s model images hparse hl, ha]
        exact ⟨_, rfl, by simp [probesOf]⟩
      · have hl : (acquire V s.engine model).loaded
            = some (V.vaal_model_probe s.engine model) := by rw [ha]; simp [hp]
        rw [main_loaded V opts s model images _ hparse hl, ha]
        refine ⟨_, rfl, ?_⟩
        have : probesOf ((poseImages V (V.vaal_model_probe s.engine model) 0 images
            ⟨List.replicate max_keypoints VAALKeypoint.zero, 0⟩).trace) = [] :=
          probesOf_inLoop _ _ (poseImages_inLoop V _ images 0 _)
        simpa [probesOf] using this
    refine ⟨hex, ?_⟩
    obtain ⟨rest, hrest, hnone⟩ := hex
    rw [hrest, probesOf_append, hnone]
    simp [probesOf]
  · intro hok
    have ha := acquire_direct V s.engine model hok
    have hl : (acquire V s.engine model).loaded = some (V.vaal_context_create s.engine) := by
      rw [ha]
    rw [main_loaded V opts s model images _ hparse hl, ha]
    have : probesOf ((poseImages V (V.vaal_context_create s.engine) 0 images
        ⟨List.replicate max_keypoints VAALKeypoint.zero, 0⟩).trace) = [] :=
      probesOf_inLoop _ _ (poseImages_inLoop V _ images 0 _)
    simp only [List.cons_append, List.nil_append]
    simpa [probesOf] using this

/-- Instance of C2: `-e cpu pose.rtm a.jpg` on an engine whose direct load
fails. -/
theorem probe_fallback_once_witness :
    directLoadFails.vaal_load_model_file (directLoadFails.vaal_context_create "cpu")
      "pose.rtm" ≠ 0 ∧
    probesOf (main directLoadFails ⟨[⟨'e', "cpu"⟩], ["pose.rtm", "a.jpg"]⟩).trace
      = [("cpu", "pose.rtm")] :=
  ⟨by decide,
   ((probe_fallback_once directLoadFails [⟨'e', "cpu"⟩] ⟨"cpu", 0⟩ "pose.rtm" ["a.jpg"]
      rfl).1 (by decide)).2⟩

/-- C3: in a batch whose images 1..k-1 pass all three stages and whose image k
fails to load (1 ≤ k ≤ N), the run consists of acquisition, configuration, the
k-1 successful iterations and the failed load of image k, and nothing after it:
standard output is exactly the k-1 reports of images 1..k-1 in command-line order
(k-1 timing lines), the images handed to `vaal_load_image_file` are exactly the
first k, `vaal_run_model` and `vaal_keypoints` are each called k-1 times, and the
exit status is `EXIT_FAILURE`. -/
theorem load_failure_stops_batch (V : Vaal) (opts : List GetOpt) (s : Settings)
    (model : String) (images : List String) (ctx : Ctx) (k : Nat) (bad : String)
    (hparse : parseOptions V opts ⟨"npu", 0⟩ = .ok s)
    (hacq : (acquire V s.engine model).loaded = some ctx)
    (hk : 1 ≤ k)
    (hpass : ∀ t image, t < k - 1 → images[t]? = some image → StagesPass V ctx t image)
    (hbad : images[k - 1]? = some bad)
    (hfail : V.vaal_load_image_file (k - 1) ctx bad ≠ 0) :
    (main V ⟨opts, model :: images⟩).status = EXIT_FAILURE ∧
    (main V ⟨opts, model :: images⟩).trace =
      .calloc max_keypoints :: (acquire V s.engine model).events ++
        .vaal_parameter_seti ctx "normalization" [s.norm] 1 ::
        (passTrace V ctx 0 (images.take (k - 1)) ++ loadFailEvents V ctx (k - 1) bad) ∧
    stdoutOf (main V ⟨opts, model :: images⟩).trace = reportsFrom V ctx 0 (k - 1) ∧
    timingLines (stdoutOf (main V ⟨opts, model :: images⟩).trace) = k - 1 ∧
    imageLoadsOf (main V ⟨opts, model :: images⟩).trace = images.take k ∧
    runCalls (main V ⟨opts, model :: images⟩).trace = k - 1 ∧
    keypointCalls (main V ⟨opts, model :: images⟩).trace = k - 1 := by
  obtain ⟨hsplit, hlen, htake⟩ := list_split_at images (k - 1) bad hbad
  have hk1 : k - 1 + 1 = k := by omega
  rw [hk1] at htake
  have hdone : ∀ t image, (images.take (k - 1))[t]? = some image →
      StagesPass V ctx (0 + t) image := by
    intro t image ht
    rw [List.getElem?_take] at ht
    split at ht
    · rw [Nat.zero_add]; exact hpass t image (by assumption) ht
    · cases ht
  obtain ⟨st1, hst1⟩ := poseImages_pass_append V ctx (bad :: images.drop (k - 1 + 1))
    (images.take (k - 1)) 0 ⟨List.replicate max_keypoints VAALKeypoint.zero, 0⟩ hdone
  rw [← hsplit, hlen, Nat.zero_add] at hst1
  have hrun := main_loaded V opts s model images ctx hparse hacq
  rw [hst1] at hrun
  simp only [poseImages, poseImage_load_fail V ctx (k - 1) bad st1 hfail] at hrun
  have hdet : ∀ t, t < k - 1 → (V.detections (0 + t) ctx).isSome = true := by
    intro t ht
    have hlt : t < images.length := by
      have := (List.getElem?_eq_some.mp hbad).1
      omega
    rw [Nat.zero_add]
    exact (hpass t images[t] ht (List.getElem?_eq_getElem hlt)).2.2
  have hout : stdoutOf (main V ⟨opts, model :: images⟩).trace = reportsFrom V ctx 0 (k - 1) := by
    rw [hrun]
    have e : ∀ (a b : List Event) (x : Event), a ++ x :: b = a ++ ([x] ++ b) := by
      intro a b x; rfl
    simp only [List.cons_append]
    rw [show ∀ (x : Event) (l : List Event), x :: l = [x] ++ l from fun _ _ => rfl, e]
    simp only [stdoutOf_append, stdoutOf_acquire, stdoutOf_passTrace, hlen]
    simp [stdoutOf, loadFailEvents]
  refine ⟨by rw [hrun], by rw [hrun], hout, ?_, ?_, ?_, ?_⟩
  · rw [hout]; exact timingLines_reportsFrom V ctx (k - 1) 0 hdet
  · rw [hrun]
    have e : ∀ (a b : List Event) (x : Event), a ++ x :: b = a ++ ([x] ++ b) := by
      intro a b x; rfl
    simp only [List.cons_append]
    rw [show ∀ (x : Event) (l : List Event), x :: l = [x] ++ l from fun _ _ => rfl, e]
    simp only [imageLoadsOf_append, imageLoadsOf_acquire, imageLoadsOf_passTrace, htake]
    simp [imageLoadsOf, loadFailEvents]
  · rw [hrun]
    have e : ∀ (a b : List Event) (x : Event), a ++ x :: b = a ++ ([x] ++ b) := by
      intro a b x; rfl
    simp only [List.cons_append]
    rw [show ∀ (x : Event) (l : List Event), x :: l = [x] ++ l from fun _ _ => rfl, e]
    simp only [runCalls_append, runCalls_acquire, runCalls_passTrace, hlen]
    simp [runCalls, loadFailEvents]
  · rw [hrun]
    have e : ∀ (a b : List Event) (x : Event), a ++ x :: b = a ++ ([x] ++ b) := by
      intro a b x; rfl
    simp only [List.cons_append]
    rw [show ∀ (x : Event) (l : List Event), x :: l = [x] ++ l from fun _ _ => rfl, e]
    simp only [keypointCalls_append, keypointCalls_acquire, keypointCalls_passTrace, hlen]
    simp [keypointCalls, loadFailEvents]

/-- Instance of C3: four images, the third fails to load (k = 3). -/
theorem load_failure_stops_batch_witness :
    (main thirdLoadFails ⟨[], ["pose.rtm", "a.jpg", "b.jpg", "c.jpg", "d.jpg"]⟩).status
      = EXIT_FAILURE ∧
    stdoutOf (main thirdLoadFails
      ⟨[], ["pose.rtm", "a.jpg", "b.jpg", "c.jpg", "d.jpg"]⟩).trace
      = reportsFrom thirdLoadFails 1 0 2 ∧
    imageLoadsOf (main thirdLoadFails
      ⟨[], ["pose.rtm", "a.jpg", "b.jpg", "c.jpg", "d.jpg"]⟩).trace
      = ["a.jpg", "b.jpg", "c.jpg"] :=
  have h := load_failure_stops_batch thirdLoadFails [] ⟨"npu", 0⟩ "pose.rtm"
    ["a.jpg", "b.jpg", "c.jpg", "d.jpg"] 1 3 "c.jpg" rfl (by decide) (by decide)
    (by
      intro t image ht _
      refine ⟨?_, rfl, rfl⟩
      have : t ≠ 2 := by omega
      simp [thirdLoadFails, this])
    (by decide) (by decide)
  ⟨h.1, h.2.2.1, h.2.2.2.2.1⟩

/-- C4: the tokens raw, unsigned, signed, whitening, imagenet yield the codes
0, `VAAL_IMAGE_PROC_UNSIGNED_NORM`, `VAAL_IMAGE_PROC_SIGNED_NORM`,
`VAAL_IMAGE_PROC_WHITENING`, `VAAL_IMAGE_PROC_IMAGENET`, and every other string
(matching is string equality) is rejected; when the option loop reaches a `-n`
option with a valid token it assigns that code to `norm` and goes on, and the
code of the last `-n` option is the one in force when the loop ends; with no
`-n` option `norm` stays 0; when the loop reaches a `-n` option with any other
token the run is a single line on standard error and `EXIT_FAILURE`, with no
library call at all; and a command line that holds such an option anywhere
performs no library call other than, possibly, `vaal_version`. -/
theorem norm_option_parsing (V : Vaal) :
    parseNorm V "raw" = some 0 ∧
    parseNorm V "unsigned" = some V.VAAL_IMAGE_PROC_UNSIGNED_NORM ∧
    parseNorm V "signed" = some V.VAAL_IMAGE_PROC_SIGNED_NORM ∧
    parseNorm V "whitening" = some V.VAAL_IMAGE_PROC_WHITENING ∧
    parseNorm V "imagenet" = some V.VAAL_IMAGE_PROC_IMAGENET ∧
    (∀ tok, tok ∉ ["raw", "unsigned", "signed", "whitening", "imagenet"] →
      parseNorm V tok = none) ∧
    (∀ (pre post : List GetOpt) (s : Settings) (tok : String) (code : Int),
      parseOptions V pre ⟨"npu", 0⟩ = .ok s → parseNorm V tok = some code →
      parseOptions V (pre ++ ⟨'n', tok⟩ :: post) ⟨"npu", 0⟩ =
        parseOptions V post ⟨s.engine, code⟩) ∧
    (∀ (pre post : List GetOpt) (s s2 : Settings) (tok : String) (code : Int),
      parseOptions V pre ⟨"npu", 0⟩ = .ok s → parseNorm V tok = some code →
      (∀ o ∈ post, o.opt ≠ 'n') →
      parseOptions V (pre ++ ⟨'n', tok⟩ :: post) ⟨"npu", 0⟩ = .ok s2 → s2.norm = code) ∧
    (∀ (opts : List GetOpt) (s : Settings), (∀ o ∈ opts, o.opt ≠ 'n') →
      parseOptions V opts ⟨"npu", 0⟩ = .ok s → s.norm = 0) ∧
    (∀ (pre post : List GetOpt) (s : Settings) (tok : String) (operands : List String),
      parseOptions V pre ⟨"npu", 0⟩ = .ok s →
      tok ∉ ["raw", "unsigned", "signed", "whitening", "imagenet"] →
      main V ⟨pre ++ ⟨'n', tok⟩ :: post, operands⟩ =
          ⟨[.stderr ("unsupported image normalization method: " ++ tok ++ "\n")],
           EXIT_FAILURE⟩ ∧
        ∀ e ∈ (main V ⟨pre ++ ⟨'n', tok⟩ :: post, operands⟩).trace,
          e.isEngineCall = false) ∧
    (∀ (opts : List GetOpt) (tok : String) (operands : List String),
      ⟨'n', tok⟩ ∈ opts →
      tok ∉ ["raw", "unsigned", "signed", "whitening", "imagenet"] →
      ∀ e ∈ (main V ⟨opts, operands⟩).trace,
        e = .vaal_version ∨ e.isEngineCall = false) := by
  refine ⟨by simp [parseNorm], by simp [parseNorm], by simp [parseNorm],
    by simp [parseNorm], by simp [parseNorm], parseNorm_none V, ?_, ?_, ?_, ?_, ?_⟩
  · intro pre post s tok code hpre hcode
    rw [parseOptions_append V _ pre _ s hpre, parseOptions_norm_option, hcode]
  · intro pre post s s2 tok code hpre hcode hpost hall
    rw [parseOptions_append V _ pre _ s hpre, parseOptions_norm_option, hcode] at hall
    exact parseOptions_keeps_norm V post _ s2 hpost hall
  · intro opts s hno h
    exact parseOptions_keeps_norm V opts _ s hno h
  · intro pre post s tok operands hpre htok
    have hrun : main V ⟨pre ++ ⟨'n', tok⟩ :: post, operands⟩ =
        ⟨[.stderr ("unsupported image normalization method: " ++ tok ++ "\n")],
         EXIT_FAILURE⟩ := by
      apply main_parse_error
      rw [parseOptions_append V _ pre _ s hpre, parseOptions_norm_option,
        parseNorm_none V tok htok]
    refine ⟨hrun, ?_⟩
    rw [hrun]
    intro e he
    simp only [List.mem_singleton] at he
    rw [he]; rfl
  · intro opts tok operands hmem htok
    obtain ⟨r, hr⟩ := parseOptions_bad_norm V tok (parseNorm_none V tok htok) opts
      ⟨"npu", 0⟩ hmem
    rw [main_parse_error V opts operands r hr]
    rcases parseOptions_error V opts _ r hr with ⟨t, rfl⟩ | rfl | rfl
    · intro e he
      simp only [List.mem_singleton] at he
      rw [he]; exact Or.inr rfl
    · intro e he
      simp only [List.mem_singleton] at he
      rw [he]; exact Or.inr rfl
    · intro e he
      simp only [List.mem_cons, List.not_mem_nil, or_false] at he
      rcases he with rfl | rfl
      · exact Or.inl rfl
      · exact Or.inr rfl

/-- Instance of C4: `-e cpu -n RAW pose.rtm a.jpg` (wrong case) fails before
any library call. -/
theorem norm_option_parsing_witness :
    parseOptions sampleVaal [⟨'e', "cpu"⟩] ⟨"npu", 0⟩ = .ok ⟨"cpu", 0⟩ ∧
    main sampleVaal ⟨[⟨'e', "cpu"⟩] ++ ⟨'n', "RAW"⟩ :: [], ["pose.rtm", "a.jpg"]⟩ =
      ⟨[.stderr ("unsupported image normalization method: " ++ "RAW" ++ "\n")],
       EXIT_FAILURE⟩ :=
  ⟨rfl,
   ((norm_option_parsing sampleVaal).2.2.2.2.2.2.2.2.2.1 [⟨'e', "cpu"⟩] [] ⟨"cpu", 0⟩ "RAW"
      ["pose.rtm", "a.jpg"] rfl (by decide)).1⟩

/-- C5 (evaluation at a failing input): when the keypoint decode of an image
fails, `main` writes `Keypoint detection failed.` to standard output, writes
nothing to standard error, and returns `EXIT_FAILURE`. -/
theorem decode_failure_message_on_stdout :
    main decodeFails ⟨[], ["pose.rtm", "a.jpg"]⟩ =
      ⟨[.calloc 50, .vaal_context_create "npu", .vaal_load_model_file 1 "pose.rtm",
        .vaal_parameter_seti 1 "normalization" [0] 1,
        .vaal_clock_now, .vaal_load_image_file 1 "a.jpg", .vaal_clock_now,
        .vaal_clock_now, .vaal_run_model 1, .vaal_clock_now,
        .vaal_clock_now, .vaal_keypoints 1 50,
        .stdout (.text "Keypoint detection failed.\n")], EXIT_FAILURE⟩ ∧
    stderrOf (main decodeFails ⟨[], ["pose.rtm", "a.jpg"]⟩).trace = [] ∧
    stdoutOf (main decodeFails ⟨[], ["pose.rtm", "a.jpg"]⟩).trace
      = [.text "Keypoint detection failed.\n"] := by
  decide

/-- C6: the decode stage never reports more keypoints than the capacity it is
given, and it leaves the size of a buffer of at least that capacity unchanged;
`main` allocates `max_keypoints = 50` entries, passes 50 as the capacity of every
`vaal_keypoints` call, carries `num_kpts ≤ 50` out of every successful iteration,
and every keypoint line it prints reads a buffer index below 50. -/
theorem keypoint_count_within_capacity :
    max_keypoints = 50 ∧
    (∀ (ks : List VAALKeypoint) (buf : Buffer) (max num : Nat),
      (vaal_keypoints (some ks) buf max num).num_kpts ≤ max) ∧
    (∀ (found : Option (List VAALKeypoint)) (buf : Buffer) (max num : Nat),
      max ≤ buf.length → (vaal_keypoints found buf max num).keypoints.length = buf.length) ∧
    (∀ (V : Vaal) (ctx : Ctx) (i : Nat) (image : String) (st : LoopState)
      (events : List Event) (st1 : LoopState),
      poseImage V ctx i image st = .next events st1 → st1.num_kpts ≤ max_keypoints) ∧
    (∀ (V : Vaal) (cmd : CommandLine), ∀ e ∈ (main V cmd).trace, e.withinCapacity) := by
  refine ⟨rfl, ?_, ?_, ?_, main_withinCapacity⟩
  · intro ks buf max num
    simp only [vaal_keypoints, List.length_take]
    omega
  · intro found buf max num hmax
    cases found with
    | none => rfl
    | some ks =>
      simp only [vaal_keypoints, List.length_append, List.length_take, List.length_drop]
      omega
  · intro V ctx i image st events st1 h
    by_cases h1 : V.vaal_load_image_file i ctx image = 0
    · by_cases h2 : V.vaal_run_model i ctx = 0
      · cases h3 : V.detections i ctx with
        | none => rw [poseImage_decode_fail V ctx i image st h1 h2 h3] at h; cases h
        | some ks =>
          rw [poseImage_pass V ctx i image st ks h1 h2 h3] at h
          simp only [Iteration.next.injEq] at h
          rw [← h.2]
          simp only [List.length_take, max_keypoints]
          omega
      · rw [poseImage_run_fail V ctx i image st h1 h2] at h; cases h
    · rw [poseImage_load_fail V ctx i image st h1] at h; cases h

/-- Instance of C6: a decode that finds 60 keypoints fills a 50-entry buffer
and reports 50. -/
theorem keypoint_count_within_capacity_witness :
    (50 : Nat) ≤ (List.replicate 50 VAALKeypoint.zero).length ∧
    (vaal_keypoints (some (List.replicate 60 VAALKeypoint.zero))
      (List.replicate 50 VAALKeypoint.zero) 50 0).keypoints.length
      = (List.replicate 50 VAALKeypoint.zero).length :=
  ⟨by decide,
   keypoint_count_within_capacity.2.2.1 (some (List.replicate 60 VAALKeypoint.zero))
     (List.replicate 50 VAALKeypoint.zero) 50 0 (by decide)⟩

/-- C7: for an image whose load, inference and decode all succeed, the decode
leaving `n` keypoints in the buffer, the iteration writes exactly one timing line
followed by the `n` keypoint lines of buffer entries `0, …, n-1` in this order,
line `j` carrying index `j`, the percentage of entry `j` and its coordinates; the
iteration does not exit, also when `n = 0`, where the timing line stands alone.
The percentage is the binary32 product `score * 100` with its fractional part
discarded: sign times the floor of the magnitude, the product being the exact
one where it fits 24 bits and within half a unit in the last place of it
otherwise.  A run all of whose images pass
prints the reports in command-line order and returns `EXIT_SUCCESS`.  The scores
0.91f, 0.40f, 0.77f give 91, 40, 77. -/
theorem report_lines :
    (∀ (V : Vaal) (ctx : Ctx) (i : Nat) (image : String) (st : LoopState)
      (ks : List VAALKeypoint),
      V.vaal_load_image_file i ctx image = 0 → V.vaal_run_model i ctx = 0 →
      V.detections i ctx = some ks →
      ∃ events st1, poseImage V ctx i image st = .next events st1 ∧
        st1.num_kpts = min ks.length max_keypoints ∧
        st1.keypoints.take st1.num_kpts = ks.take max_keypoints ∧
        stdoutOf events = timingLine V i :: rowsFrom 0 (st1.keypoints.take st1.num_kpts) ∧
        (stdoutOf events).length = 1 + st1.num_kpts ∧
        (st1.num_kpts = 0 → stdoutOf events = [timingLine V i])) ∧
    (∀ (ks : List VAALKeypoint) (j : Nat) (p : VAALKeypoint), ks[j]? = some p →
      (rowsFrom 0 ks)[j]? = some (.keypoint j (scorePercent p.score) p.x p.y)) ∧
    (∀ (score : F32) (b : Binary) (v : Int), score.toBinary = some b →
      scorePercent score = some v →
      v = (if b.neg then -1 else 1) * ⌊((mul100 b).m : ℚ) * (2 : ℚ) ^ (mul100 b).e⌋) ∧
    (∀ b : Binary, |(mul100 b).toRat - b.toRat * 100| ≤
      if b.m * 100 < 2 ^ 24 then 0 else (2 : ℚ) ^ (mul100 b).e / 2) ∧
    (∀ (V : Vaal) (opts : List GetOpt) (s : Settings) (model : String)
      (images : List String) (ctx : Ctx),
      parseOptions V opts ⟨"npu", 0⟩ = .ok s →
      (acquire V s.engine model).loaded = some ctx →
      (∀ t image, images[t]? = some image → StagesPass V ctx t image) →
      stdoutOf (main V ⟨opts, model :: images⟩).trace = reportsFrom V ctx 0 images.length ∧
        (main V ⟨opts, model :: images⟩).status = EXIT_SUCCESS) ∧
    scorePercent ⟨0x3F68F5C3⟩ = some 91 ∧ scorePercent ⟨0x3ECCCCCD⟩ = some 40 ∧
      scorePercent ⟨0x3F451EB8⟩ = some 77 := by
  refine ⟨?_, ?_, ?_, mul100_nearest, ?_, by decide, by decide, by decide⟩
  · intro V ctx i image st ks h1 h2 h3
    refine ⟨_, _, poseImage_pass V ctx i image st ks h1 h2 h3, ?_, ?_, ?_, ?_, ?_⟩
    · simp [List.length_take, Nat.min_comm]
    · simp
    · rw [stdoutOf_passEvents]
      simp [report, h3]
    · rw [stdoutOf_passEvents]
      simp [report, h3, rowsFrom_length, Nat.add_comm]
    · intro h0
      rw [stdoutOf_passEvents]
      simp only [List.length_take] at h0
      have : ks.take max_keypoints = [] := by
        apply List.eq_nil_of_length_eq_zero
        simpa [List.length_take] using h0
      simp [report, h3, this, rowsFrom]
  · intro ks j p h
    rw [rowsFrom_getElem?, h]
    simp
  · intro score b v hb hv
    simp only [scorePercent, hb] at hv
    rw [← mul100_neg b]
    exact (truncToInt_eq _ v hv).1
  · intro V opts s model images ctx hparse hacq hpass
    have hdone : ∀ t image, images[t]? = some image → StagesPass V ctx (0 + t) image := by
      intro t image ht
      rw [Nat.zero_add]; exact hpass t image ht
    obtain ⟨st1, hst1⟩ := poseImages_pass_append V ctx [] images 0
      ⟨List.replicate max_keypoints VAALKeypoint.zero, 0⟩ hdone
    rw [List.append_nil] at hst1
    have hrun := main_loaded V opts s model images ctx hparse hacq
    rw [hst1] at hrun
    simp only [poseImages] at hrun
    rw [hrun]
    refine ⟨?_, rfl⟩
    simp only [List.cons_append]
    rw [show ∀ (x : Event) (l : List Event), x :: l = [x] ++ l from fun _ _ => rfl,
      show ∀ (a b : List Event) (x : Event), a ++ x :: b = a ++ ([x] ++ b) from
        fun _ _ _ => rfl]
    simp only [stdoutOf_append, stdoutOf_acquire, stdoutOf_passTrace]
    simp [stdoutOf]

/-- Instance of C7: the scenario `-e cpu -n imagenet pose.rtm a.jpg` on an engine
that finds three keypoints with scores 0.91f, 0.40f, 0.77f. -/
theorem report_lines_witness :
    (∀ t image, ["a.jpg"][t]? = some image → StagesPass sampleVaal 1 t image) ∧
    stdoutOf (main sampleVaal
      ⟨[⟨'e', "cpu"⟩, ⟨'n', "imagenet"⟩], ["pose.rtm", "a.jpg"]⟩).trace =
      [.timing 1000 1000 1000,
       .keypoint 0 (some 91) ⟨0x42C80000⟩ ⟨0x42480000⟩,
       .keypoint 1 (some 40) ⟨0x42C80000⟩ ⟨0x42480000⟩,
       .keypoint 2 (some 77) ⟨0x42C80000⟩ ⟨0x42480000⟩] ∧
    (main sampleVaal
      ⟨[⟨'e', "cpu"⟩, ⟨'n', "imagenet"⟩], ["pose.rtm", "a.jpg"]⟩).status = EXIT_SUCCESS := by
  have hpass : ∀ t image, ["a.jpg"][t]? = some image → StagesPass sampleVaal 1 t image :=
    fun _ _ _ => ⟨rfl, rfl, rfl⟩
  have h := report_lines.2.2.2.2.1 sampleVaal [⟨'e', "cpu"⟩, ⟨'n', "imagenet"⟩] ⟨"cpu", 8⟩
    "pose.rtm" ["a.jpg"] 1 rfl (by decide) hpass
  refine ⟨hpass, ?_, h.2⟩
  rw [h.1]
  decide

/-- C8: if the direct model load fails with code `err` and the probe returns
`NULL`, the run is exactly: allocation, create, load, release, probe, the
`vaal_strerror (err)` lookup and one line on standard error carrying that string;
no parameter is set, no image is processed, and the status is `EXIT_FAILURE`. -/
theorem both_fail_reports_direct_error (V : Vaal) (opts : List GetOpt) (s : Settings)
    (model : String) (images : List String)
    (hparse : parseOptions V opts ⟨"npu", 0⟩ = .ok s)
    (hload : V.vaal_load_model_file (V.vaal_context_create s.engine) model ≠ 0)
    (hprobe : V.vaal_model_probe s.engine model = 0) :
    main V ⟨opts, model :: images⟩ =
      ⟨[.calloc max_keypoints, .vaal_context_create s.engine,
        .vaal_load_model_file (V.vaal_context_create s.engine) model,
        .vaal_context_release (V.vaal_context_create s.engine),
        .vaal_model_probe s.engine model,
        .vaal_strerror (V.vaal_load_model_file (V.vaal_context_create s.engine) model),
        .stderr ("failed to load model: "
          ++ V.vaal_strerror (V.vaal_load_model_file (V.vaal_context_create s.engine) model)
          ++ "\n")],
       EXIT_FAILURE⟩ := by
  have ha := acquire_fallback V s.engine model hload
  have hl : (acquire V s.engine model).loaded = none := by rw [ha]; simp [hprobe]
  rw [main_not_loaded V opts s model images hparse hl, ha]
  rfl

/-- Instance of C8: direct load fails with code 7, the probe returns `NULL`. -/
theorem both_fail_reports_direct_error_witness :
    stderrOf (main probeFails ⟨[], ["pose.rtm", "a.jpg"]⟩).trace
      = ["failed to load model: model not supported\n"] ∧
    (main probeFails ⟨[], ["pose.rtm", "a.jpg"]⟩).status = EXIT_FAILURE := by
  have h := both_fail_reports_direct_error probeFails [] ⟨"npu", 0⟩ "pose.rtm" ["a.jpg"]
    rfl (by decide) (by decide)
  rw [h]
  exact ⟨by decide, rfl⟩

/-- C9: with a model argument, a successful acquisition (direct or by probe)
and no image argument, the run is exactly: allocation, the acquisition calls,
one `vaal_parameter_seti`, one release of the loaded context, `free`; so there
is no image-load, inference or decode call, nothing on standard output, one
`vaal_context_create`, exactly one release after acquisition (of the loaded
context), and the status is `EXIT_SUCCESS` (0). -/
theorem empty_batch_succeeds (V : Vaal) (opts : List GetOpt) (s : Settings)
    (model : String) (ctx : Ctx)
    (hparse : parseOptions V opts ⟨"npu", 0⟩ = .ok s)
    (hacq : (acquire V s.engine model).loaded = some ctx) :
    main V ⟨opts, [model]⟩ =
      ⟨.calloc max_keypoints :: (acquire V s.engine model).events ++
        [.vaal_parameter_seti ctx "normalization" [s.norm] 1,
         .vaal_context_release ctx, .free], 0⟩ ∧
    (∀ e ∈ (main V ⟨opts, [model]⟩).trace, e.isStageCall = false) ∧
    stdoutOf (main V ⟨opts, [model]⟩).trace = [] ∧
    createsOf (main V ⟨opts, [model]⟩).trace = [s.engine] ∧
    releasesOf (main V ⟨opts, [model]⟩).trace =
      releasesOf (acquire V s.engine model).events ++ [ctx] ∧
    (V.vaal_load_model_file (V.vaal_context_create s.engine) model = 0 →
      releasesOf (acquire V s.engine model).events = []) ∧
    (V.vaal_load_model_file (V.vaal_context_create s.engine) model ≠ 0 →
      releasesOf (acquire V s.engine model).events = [V.vaal_context_create s.engine]) := by
  have hrun := main_loaded V opts s model [] ctx hparse hacq
  simp only [poseImages] at hrun
  refine ⟨hrun, ?_, ?_, ?_, ?_, ?_, ?_⟩
  · rw [hrun]
    by_cases h : V.vaal_load_model_file (V.vaal_context_create s.engine) model = 0
    · rw [acquire_direct V s.engine model h]
      intro e he
      simp only [List.cons_append, List.nil_append, List.mem_cons, List.not_mem_nil,
        or_false] at he
      rcases he with rfl | rfl | rfl | rfl | rfl | rfl <;> rfl
    · rw [acquire_fallback V s.engine model h]
      intro e he
      simp only [List.cons_append, List.nil_append, List.mem_cons, List.not_mem_nil,
        or_false] at he
      rcases he with rfl | rfl | rfl | rfl | rfl | rfl | rfl | rfl <;> rfl
  · rw [hrun]
    by_cases h : V.vaal_load_model_file (V.vaal_context_create s.engine) model = 0
    · rw [acquire_direct V s.engine model h]; simp [stdoutOf]
    · rw [acquire_fallback V s.engine model h]; simp [stdoutOf]
  · rw [hrun]
    by_cases h : V.vaal_load_model_file (V.vaal_context_create s.engine) model = 0
    · rw [acquire_direct V s.engine model h]; simp [createsOf]
    · rw [acquire_fallback V s.engine model h]; simp [createsOf]
  · rw [hrun]
    by_cases h : V.vaal_load_model_file (V.vaal_context_create s.engine) model = 0
    · rw [acquire_direct V s.engine model h]; simp [releasesOf]
    · rw [acquire_fallback V s.engine model h]; simp [releasesOf]
  · intro h
    rw [acquire_direct V s.engine model h]; simp [releasesOf]
  · intro h
    rw [acquire_fallback V s.engine model h]; simp [releasesOf]

/-- Instance of C9: `pose.rtm` alone, on an engine whose direct load succeeds. -/
theorem empty_batch_succeeds_witness :
    main sampleVaal ⟨[], ["pose.rtm"]⟩ =
      ⟨[.calloc 50, .vaal_context_create "npu", .vaal_load_model_file 1 "pose.rtm",
        .vaal_parameter_seti 1 "normalization" [0] 1, .vaal_context_release 1, .free],
       0⟩ :=
  (empty_batch_succeeds sampleVaal [] ⟨"npu", 0⟩ "pose.rtm" 1 rfl (by decide)).1

/-- C10: in every run that reaches the loaded state with context `ctx`, the
trace is: allocation and the acquisition calls (no parameter call, no stage call
among them), then `vaal_parameter_seti ctx "normalization" [norm] 1` with the
parsed mode code, then the image loop, which contains no parameter call; `ctx`
is the created context when the direct load succeeded and the non-null context
returned by the probe otherwise. -/
theorem normalization_set_once (V : Vaal) (opts : List GetOpt) (s : Settings)
    (model : String) (images : List String) (ctx : Ctx)
    (hparse : parseOptions V opts ⟨"npu", 0⟩ = .ok s)
    (hacq : (acquire V s.engine model).loaded = some ctx) :
    (∃ rest, (main V ⟨opts, model :: images⟩).trace =
        (.calloc max_keypoints :: (acquire V s.engine model).events) ++
          .vaal_parameter_seti ctx "normalization" [s.norm] 1 :: rest ∧
        ∀ e ∈ rest, e.isParameterCall = false) ∧
    (∀ e ∈ Event.calloc max_keypoints :: (acquire V s.engine model).events,
        e.isParameterCall = false ∧ e.isStageCall = false) ∧
    (V.vaal_load_model_file (V.vaal_context_create s.engine) model = 0 →
      ctx = V.vaal_context_create s.engine) ∧
    (V.vaal_load_model_file (V.vaal_context_create s.engine) model ≠ 0 →
      ctx = V.vaal_model_probe s.engine model ∧ ctx ≠ 0) := by
  refine ⟨?_, ?_, ?_, ?_⟩
  · rw [main_loaded V opts s model images ctx hparse hacq]
    refine ⟨_, rfl, ?_⟩
    intro e he
    exact isParameterCall_inLoop ctx e (poseImages_inLoop V ctx images 0 _ e he)
  · by_cases h : V.vaal_load_model_file (V.vaal_context_create s.engine) model = 0
    · rw [acquire_direct V s.engine model h]
      intro e he
      simp only [List.mem_cons, List.not_mem_nil, or_false] at he
      rcases he with rfl | rfl | rfl <;> exact ⟨rfl, rfl⟩
    · rw [acquire_fallback V s.engine model h]
      intro e he
      simp only [List.mem_cons, List.not_mem_nil, or_false] at he
      rcases he with rfl | rfl | rfl | rfl | rfl <;> exact ⟨rfl, rfl⟩
  · intro h
    rw [acquire_direct V s.engine model h] at hacq
    simpa using hacq.symm
  · intro h
    rw [acquire_fallback V s.engine model h] at hacq
    by_cases hp : V.vaal_model_probe s.engine model = 0
    · simp [hp] at hacq
    · simp only [hp, ↓reduceIte, Option.some.injEq] at hacq
      exact ⟨hacq.symm, by rw [← hacq]; exact hp⟩

/-- Instance of C10: `-n imagenet pose.rtm a.jpg b.jpg` on an engine whose
direct load fails and whose probe returns context 2. -/
theorem normalization_set_once_witness :
    (acquire directLoadFails "npu" "pose.rtm").loaded = some 2 ∧
    ∃ rest, (main directLoadFails
        ⟨[⟨'n', "imagenet"⟩], ["pose.rtm", "a.jpg", "b.jpg"]⟩).trace =
      (.calloc max_keypoints :: (acquire directLoadFails "npu" "pose.rtm").events) ++
        .vaal_parameter_seti 2 "normalization" [8] 1 :: rest ∧
      ∀ e ∈ rest, e.isParameterCall = false :=
  ⟨by decide,
   (normalization_set_once directLoadFails [⟨'n', "imagenet"⟩] ⟨"npu", 8⟩ "pose.rtm"
      ["a.jpg", "b.jpg"] 2 rfl (by decide)).1⟩

end BodyPose
